import Mathlib

/-!
Verification development for the astro-calendar event detectors.

The Python sources are shallowly embedded over exact rational arithmetic:

* instants handed to detectors (Python `datetime` values) are rationals counted
  in seconds; `timedelta` constants become the corresponding number of seconds;
* julian-day arguments (the `jd` parameters fed to the ephemeris oracle) are
  rationals counted in days, and `julian_day` is the affine conversion
  `t / 86400` (the constant epoch offset of `swe.julday` is absorbed into the
  oracle's indexing, which is legitimate because the oracle is an opaque
  function of the instant);
* the ephemeris oracle (`swe.calc_ut`, `ephem`) is an explicit function
  parameter, reflecting its role as an external black box;
* Python `while` loops stepping a date by a fixed positive increment are
  embedded as folds over the explicitly computed list of visited instants;
  loops whose iteration count depends on evaluated values take a fuel
  parameter and the theorems hold for every fuel.
-/

namespace AstroCal

attribute [local semireducible] Rat.mul Rat.add Rat.sub Rat.inv Rat.ofScientific

/-- Truncation toward zero of a rational, the semantics of Python's int() conversion. -/
def pytrunc (q : ℚ) : ℤ := if 0 ≤ q then ⌊q⌋ else ⌈q⌉

/-- Python's modulo on numbers: the result carries the sign of the divisor, so for a
positive divisor it lies in the interval from 0 (inclusive) to the divisor (exclusive). -/
def pymod (x m : ℚ) : ℚ := x - m * ⌊x / m⌋

/-- Reduction of an angle into the interval from 0 to 360 degrees, Python's x % 360. -/
def mod360 (x : ℚ) : ℚ := pymod x 360

/-- Python list subscription: nonnegative indices address from the front, negative
indices count from the back, and any other index raises IndexError (modelled as none). -/
def pyListGet {α : Type} (l : List α) (i : ℤ) : Option α :=
  if 0 ≤ i then l.get? i.toNat
  else if 0 ≤ i + l.length then l.get? (i + l.length).toNat
  else none

/-- Classification outcomes produced by the eclipse decision tables of
src/calculators/eclipses.py (the Spanish strings Total, Anular, Parcial, Penumbral). -/
inductive EclipseKind
  | Total
  | Anular
  | Parcial
  | Penumbral
deriving DecidableEq, Repr

/-- Embedding of EclipseCalculator._get_solar_eclipse_type. -/
def solar_eclipse_type (node_distance moon_lat signed_distance : ℚ) :
    ℚ × Option EclipseKind :=
  if node_distance > 185/10 then (signed_distance, none)
  else if moon_lat > 15/10 then (signed_distance, none)
  else if node_distance ≤ 10 then
    if moon_lat ≤ 1/2 then (signed_distance, some .Total)
    else if moon_lat ≤ 9/10 then (signed_distance, some .Anular)
    else if moon_lat ≤ 12/10 then (signed_distance, some .Parcial)
    else (signed_distance, none)
  else if node_distance ≤ 185/10 then (signed_distance, some .Parcial)
  else (signed_distance, none)

/-- Embedding of EclipseCalculator._get_lunar_eclipse_type.  The elongation is computed
from the sun and moon longitudes exactly as in the source and only consulted by the
penumbral tier. -/
def lunar_eclipse_type (node_distance moon_lat sun_lon moon_lon signed_distance : ℚ) :
    ℚ × Option EclipseKind :=
  if node_distance > 125/10 then (signed_distance, none)
  else if moon_lat > 1 then (signed_distance, none)
  else
    let elong0 := |moon_lon - (sun_lon + 180)|
    let elong := if elong0 > 180 then 360 - elong0 else elong0
    if node_distance ≤ 38/10 then
      if moon_lat ≤ 1/2 then (signed_distance, some .Total)
      else if moon_lat ≤ 7/10 then (signed_distance, some .Parcial)
      else (signed_distance, none)
    else if node_distance ≤ 6 then
      if moon_lat ≤ 85/100 then (signed_distance, some .Parcial)
      else (signed_distance, none)
    else if node_distance ≤ 125/10 then
      if moon_lat ≤ 1 ∧ elong ≥ 175 then (signed_distance, some .Penumbral)
      else (signed_distance, none)
    else (signed_distance, none)

/-- The 12-entry zodiac sign table AstronomicalConstants.SIGNS. -/
def SIGNS : List String :=
  ["Aries", "Tauro", "Géminis", "Cáncer", "Leo", "Virgo",
   "Libra", "Escorpio", "Sagitario", "Capricornio", "Acuario", "Piscis"]

/-- Embedding of math_utils.format_position.  The Python f-string result is abstracted
to the triple (degrees, minutes, sign name); the function is partial exactly where the
list subscription SIGNS[sign_num] raises, which the Option models. -/
def format_position (lon : ℚ) : Option (ℤ × ℤ × String) :=
  let sign_num := pytrunc (lon / 30)
  let pos_in_sign := pymod lon 30
  let degrees := pytrunc pos_in_sign
  let minutes := pytrunc ((pos_in_sign - (degrees : ℚ)) * 60)
  (pyListGet SIGNS sign_num).map (fun s => (degrees, minutes, s))

/-- Embedding of AstronomicalConstants.get_sign_name, which reduces the sign index
modulo 12 before the table lookup. -/
def get_sign_name (longitude : ℚ) : Option String :=
  pyListGet SIGNS (pytrunc (longitude / 30) % 12)

/-- One update of the tracked pair (best_date, min_value) in time_utils.find_exact_time:
the incumbent is displaced only by a strictly smaller value. -/
def fetUpdate (bm : ℚ × ℚ) (d v : ℚ) : ℚ × ℚ := if v < bm.2 then (d, v) else bm

/-- The ternary-narrowing while loop of time_utils.find_exact_time.  The state is
(start_date, end_date) plus the tracked (best_date, min_value) pair; the loop runs while
the span exceeds the tolerance, and the fuel bounds the number of iterations (every
theorem below holds for every fuel). -/
def fet_loop (f : ℚ → ℚ) (tol : ℚ) : ℕ → ℚ → ℚ → ℚ × ℚ → ℚ × ℚ × ℚ × ℚ
  | 0, s, e, bm => (s, e, bm.1, bm.2)
  | fuel+1, s, e, bm =>
    if e - s > tol then
      let third := (e - s) / 3
      let p1 := s + third
      let p2 := s + 2 * third
      let v1 := f p1
      let v2 := f p2
      let bm2 := fetUpdate (fetUpdate bm p1 v1) p2 v2
      let sv := f s
      let ev := f e
      if v1 < v2 then
        if v1 < sv then fet_loop f tol fuel s p2 bm2 else fet_loop f tol fuel s p1 bm2
      else if v2 < v1 then
        if v2 < ev then fet_loop f tol fuel p1 e bm2 else fet_loop f tol fuel p2 e bm2
      else fet_loop f tol fuel p1 p2 bm2
    else (s, e, bm.1, bm.2)

/-- The final-refinement block of time_utils.find_exact_time, operating on the loop's
final state (start_date, end_date, best_date, min_value): endpoint checks, midpoint
check, and the parabolic interpolation step. -/
def fet_final (f : ℚ → ℚ) (r : ℚ × ℚ × ℚ × ℚ) : ℚ × ℚ :=
  let s := r.1
  let e := r.2.1
  let b := r.2.2.1
  let m := r.2.2.2
  if s ≠ e then
    let sv := f s
    let ev := f e
    let bm2 := fetUpdate (fetUpdate (b, m) s sv) e ev
    let mid := s + (e - s) / 2
    let mv := f mid
    if mv < bm2.2 then
      let denom := sv - 2 * mv + ev
      if |denom| > 1/10000000000 then
        let alpha := 1/2 * (sv - ev) / denom
        if 0 < alpha ∧ alpha < 1 then
          let it := s + alpha * (e - s)
          let iv := f it
          if iv < mv then (it, iv) else (mid, mv)
        else (mid, mv)
      else (mid, mv)
    else bm2
  else (b, m)

/-- Embedding of time_utils.find_exact_time: the ternary-narrowing loop followed by the
final refinement.  Returns the pair (best_date, min_value). -/
def find_exact_time (f : ℚ → ℚ) (start_date end_date tol : ℚ) (fuel : ℕ) : ℚ × ℚ :=
  fet_final f (fet_loop f tol fuel start_date end_date (start_date, f start_date))

/-- Trace of the instants at which find_exact_time's loop evaluates the condition
function, in call order (the two trisection points, then the re-evaluated endpoints),
mirroring the recursion of fet_loop. -/
def fet_loop_evals (f : ℚ → ℚ) (tol : ℚ) : ℕ → ℚ → ℚ → ℚ × ℚ → List ℚ
  | 0, _, _, _ => []
  | fuel+1, s, e, bm =>
    if e - s > tol then
      let third := (e - s) / 3
      let p1 := s + third
      let p2 := s + 2 * third
      let v1 := f p1
      let v2 := f p2
      let bm2 := fetUpdate (fetUpdate bm p1 v1) p2 v2
      let sv := f s
      let ev := f e
      [p1, p2, s, e] ++
        (if v1 < v2 then
          if v1 < sv then fet_loop_evals f tol fuel s p2 bm2
          else fet_loop_evals f tol fuel s p1 bm2
        else if v2 < v1 then
          if v2 < ev then fet_loop_evals f tol fuel p1 e bm2
          else fet_loop_evals f tol fuel p2 e bm2
        else fet_loop_evals f tol fuel p1 p2 bm2)
    else []

/-- Trace of the instants the final-refinement block evaluates, in call order,
mirroring the control flow of fet_final. -/
def fet_final_evals (f : ℚ → ℚ) (r : ℚ × ℚ × ℚ × ℚ) : List ℚ :=
  let s := r.1
  let e := r.2.1
  let b := r.2.2.1
  let m := r.2.2.2
  (if s ≠ e then
      let sv := f s
      let ev := f e
      let bm2 := fetUpdate (fetUpdate (b, m) s sv) e ev
      let mid := s + (e - s) / 2
      let mv := f mid
      [s, e, mid] ++
        (if mv < bm2.2 then
          let denom := sv - 2 * mv + ev
          if |denom| > 1/10000000000 then
            let alpha := 1/2 * (sv - ev) / denom
            if 0 < alpha ∧ alpha < 1 then [s + alpha * (e - s)] else []
          else []
        else [])
    else [])

/-- Trace of every instant at which find_exact_time evaluates the condition function:
the initial start_date, the loop trace, and the final-refinement trace, in call
order. -/
def find_exact_time_evals (f : ℚ → ℚ) (start_date end_date tol : ℚ) (fuel : ℕ) :
    List ℚ :=
  [start_date] ++ fet_loop_evals f tol fuel start_date end_date (start_date, f start_date)
    ++ fet_final_evals f (fet_loop f tol fuel start_date end_date (start_date, f start_date))

/-- Number of instants visited by a Python loop of the shape
while current <= stop: ...; current += step, for a positive step. -/
def scanCount (start stop step : ℚ) : ℕ := (⌊(stop - start) / step⌋ + 1).toNat

/-- The instants visited by a Python loop of the shape
while current <= stop: ...; current += step, in visiting order.  For a nonpositive step
or an empty range the loop body never runs and the list is empty. -/
def scanList (start stop step : ℚ) : List ℚ :=
  if 0 < step ∧ start ≤ stop then
    (List.range (scanCount start stop step)).map (fun k : ℕ => start + (k : ℚ) * step)
  else []

/-- The ten bodies of AstronomicalConstants.PLANETS, in dictionary order. -/
inductive Planet
  | Sol
  | Luna
  | Mercurio
  | Venus
  | Marte
  | Jupiter
  | Saturno
  | Urano
  | Neptuno
  | Pluton
deriving DecidableEq, Repr

/-- Conversion from an instant in seconds to a julian-day argument.  swe.julday is
affine in the instant; the constant epoch offset is absorbed into the oracle. -/
def julian_day (t : ℚ) : ℚ := t / 86400

/-- Embedding of math_utils.calculate_speed: longitude sampled at jd and one hour
later, differenced with the wraparound correction, scaled by 24 to degrees/day.
The oracle longitude function is jd-indexed. -/
def calculate_speed (lon : ℚ → ℚ) (jd : ℚ) : ℚ :=
  let pos1 := lon jd
  let pos2 := lon (jd + 1/24)
  let diff := pos2 - pos1
  let diff2 := if |diff| > 180 then (if diff > 0 then diff - 360 else diff + 360) else diff
  diff2 * 24

/-- Embedding of RetrogradeCalculator._calculate_speed, transcribed from its own
(duplicated) source text in retrogrades.py. -/
def retro_calculate_speed (lon : ℚ → ℚ) (jd : ℚ) : ℚ :=
  let pos1 := lon jd
  let pos2 := lon (jd + 1/24)
  let diff := pos2 - pos1
  let diff2 := if |diff| > 180 then (if diff > 0 then diff - 360 else diff + 360) else diff
  diff2 * 24

/-- The fields of the position dictionary built by
RetrogradeCalculator._calculate_planet_position (the formatted position string is not
modelled here; format_position is treated separately). -/
structure PlanetPos where
  date : ℚ
  longitude : ℚ
  speed : ℚ
deriving DecidableEq, Repr

/-- Embedding of RetrogradeCalculator._calculate_planet_position for one body whose
jd-indexed oracle longitude function is lon. -/
def retro_calculate_planet_position (lon : ℚ → ℚ) (date : ℚ) : PlanetPos :=
  let jd := julian_day date
  { date := date, longitude := lon jd, speed := retro_calculate_speed lon jd }

/-- The table AstronomicalConstants.RETROGRADE_SEARCH_INTERVALS in seconds.  The Python
dictionary has no entries for Sol and Luna (the retrograde loop skips them); the
embedding returns 0 there, a value no reachable call observes. -/
def retrograde_search_interval : Planet → ℚ
  | .Mercurio => 21600
  | .Venus => 43200
  | .Marte => 86400
  | .Jupiter => 172800
  | .Saturno => 172800
  | .Urano => 172800
  | .Neptuno => 172800
  | .Pluton => 172800
  | _ => 0

/-- One step of the first (coarse) scan of RetrogradeCalculator._find_station_point.
The state none is Python's best_date = None with min_speed = inf. -/
def stationPhase1Step (posAt : ℚ → PlanetPos) (st : Option (ℚ × ℚ × PlanetPos)) (t : ℚ) :
    Option (ℚ × ℚ × PlanetPos) :=
  let pos := posAt t
  let speed := |pos.speed|
  match st with
  | none => some (t, speed, pos)
  | some (bd, m, bp) => if speed < m then some (t, speed, pos) else some (bd, m, bp)

/-- The first (coarse) scan of _find_station_point over the bracket at step ivl. -/
def stationPhase1 (posAt : ℚ → PlanetPos) (s e ivl : ℚ) : Option (ℚ × ℚ × PlanetPos) :=
  (scanList s e ivl).foldl (stationPhase1Step posAt) none

/-- One step of the second (refined) scan of _find_station_point.  The tracked minimum
was reinitialised to inf (modelled none) while best_date and best_pos were kept. -/
def stationPhase2Step (posAt : ℚ → PlanetPos) (st : ℚ × Option ℚ × PlanetPos) (t : ℚ) :
    ℚ × Option ℚ × PlanetPos :=
  let pos := posAt t
  let speed := |pos.speed|
  match st with
  | (_, none, _) => (t, some speed, pos)
  | (bd, some m, bp) => if speed < m then (t, some speed, pos) else (bd, some m, bp)

/-- The second scan of _find_station_point: the window is best_date ± ivl at step
ivl / 6, starting from the phase-1 best date and position with the minimum reset. -/
def stationPhase2 (posAt : ℚ → PlanetPos) (bd1 : ℚ) (p1 : PlanetPos) (ivl : ℚ) :
    ℚ × Option ℚ × PlanetPos :=
  (scanList (bd1 - ivl) (bd1 + ivl) (ivl / 6)).foldl (stationPhase2Step posAt) (bd1, none, p1)

/-- One step of the third (final fixed sweep) of _find_station_point, which updates
min_speed and best_pos but no longer writes best_date. -/
def stationPhase3Step (posAt : ℚ → PlanetPos) (st : Option ℚ × PlanetPos) (t : ℚ) :
    Option ℚ × PlanetPos :=
  let pos := posAt t
  let speed := |pos.speed|
  match st with
  | (none, _) => (some speed, pos)
  | (some m, bp) => if speed < m then (some speed, pos) else (some m, bp)

/-- The final fixed sweep of _find_station_point: best_date ± 30 minutes at 30-second
steps, continuing from the phase-2 minimum and best position. -/
def stationPhase3 (posAt : ℚ → PlanetPos) (bd2 : ℚ) (m2 : Option ℚ) (p2 : PlanetPos) :
    Option ℚ × PlanetPos :=
  (scanList (bd2 - 1800) (bd2 + 1800) 30).foldl (stationPhase3Step posAt) (m2, p2)

/-- Embedding of RetrogradeCalculator._find_station_point: the three scans composed as
in the source; the is_retrograde_station argument is accepted and unused, as in the
source.  Returns the final best position dictionary. -/
def find_station_point (lon : ℚ → ℚ) (start_date end_date : ℚ) (planet : Planet)
    (_is_retrograde_station : Bool) : Option PlanetPos :=
  let ivl := retrograde_search_interval planet / 4
  let posAt := retro_calculate_planet_position lon
  match stationPhase1 posAt start_date end_date ivl with
  | none => none
  | some (bd1, _, p1) =>
    let r2 := stationPhase2 posAt bd1 p1 ivl
    let r3 := stationPhase3 posAt r2.1 r2.2.1 r2.2.2
    some r3.2

/-- The four numeric fields returned by one swe.calc_ut call: ecliptic longitude,
latitude, distance, and the ephemeris's own instantaneous speed (the field selected by
swe.FLG_SPEED). -/
structure PosQ where
  longitude : ℚ
  latitude : ℚ
  distance : ℚ
  speed : ℚ
deriving DecidableEq, Repr

/-- Embedding of math_utils.calculate_planet_position for one body whose jd-indexed
oracle tuple function is body: the first three fields are copied from the oracle and
the speed is the two-sample derivation of calculate_speed. -/
def math_calculate_planet_position (body : ℚ → PosQ) (jd : ℚ) : PosQ :=
  let result := body jd
  { longitude := result.longitude
    latitude := result.latitude
    distance := result.distance
    speed := calculate_speed (fun j => (body j).longitude) jd }

/-- Embedding of AspectCalculator._get_precise_position: all four fields, including the
speed, come straight from the oracle call made with swe.FLG_SPEED.  The except branch
(fallback to calculate_planet_position on an oracle error) is unreachable here because
the embedded oracle is total. -/
def get_precise_position (o : ℚ → Planet → PosQ) (jd : ℚ) (p : Planet) : PosQ := o jd p

/-- The fields of the node dictionary built by NodeCalculator._calculate_node_position
(the formatted position string is not modelled; format_position is treated
separately). -/
structure NodePos where
  date : ℚ
  longitude : ℚ
  latitude : ℚ
  distance : ℚ
  speed : ℚ
deriving DecidableEq, Repr

/-- Embedding of NodeCalculator._calculate_node_position: every field, including the
speed, comes straight from the swe.calc_ut tuple for the true node. -/
def calculate_node_position (node : ℚ → PosQ) (date : ℚ) : NodePos :=
  let jd := julian_day date
  let r := node jd
  { date := date
    longitude := r.longitude
    latitude := r.latitude
    distance := r.distance
    speed := r.speed }

/-- The five aspects of AstronomicalConstants.ASPECTS, in dictionary order. -/
inductive AspectName
  | Conjuncion
  | Sextil
  | Cuadratura
  | Trigono
  | Oposicion
deriving DecidableEq, Repr

/-- The angle entries of the ASPECTS table. -/
def aspect_angle : AspectName → ℚ
  | .Conjuncion => 0
  | .Sextil => 60
  | .Cuadratura => 90
  | .Trigono => 120
  | .Oposicion => 180

/-- The orb_factor entries of the ASPECTS table (all 1.0). -/
def aspect_orb_factor : AspectName → ℚ
  | .Conjuncion => 1
  | .Sextil => 1
  | .Cuadratura => 1
  | .Trigono => 1
  | .Oposicion => 1

/-- The orb_major entries of the PLANETS_INFO table (all 0.1 degrees). -/
def orb_major : Planet → ℚ
  | .Sol => 1/10
  | .Luna => 1/10
  | .Mercurio => 1/10
  | .Venus => 1/10
  | .Marte => 1/10
  | .Jupiter => 1/10
  | .Saturno => 1/10
  | .Urano => 1/10
  | .Neptuno => 1/10
  | .Pluton => 1/10

/-- The mean_speed entries of PLANETS_INFO: a scalar for Sol and Luna, a signed pair
for the rest. -/
inductive MeanSpeed
  | scalar (s : ℚ)
  | pair (lo hi : ℚ)
deriving DecidableEq, Repr

/-- The mean_speed column of the PLANETS_INFO table. -/
def mean_speed : Planet → MeanSpeed
  | .Sol => .scalar (197/200)
  | .Luna => .scalar (1647/125)
  | .Mercurio => .pair (-(7/5)) (11/5)
  | .Venus => .pair (-(3/5)) (6/5)
  | .Marte => .pair (-(2/5)) (4/5)
  | .Jupiter => .pair (-(1/10)) (1/5)
  | .Saturno => .pair (-(1/20)) (1/10)
  | .Urano => .pair (-(1/25)) (1/25)
  | .Neptuno => .pair (-(1/50)) (1/50)
  | .Pluton => .pair (-(1/100)) (1/100)

/-- Embedding of AspectCalculator._get_planet_speed: the largest absolute value of the
body's mean_speed entry. -/
def get_planet_speed (p : Planet) : ℚ :=
  match mean_speed p with
  | .scalar s => |s|
  | .pair lo hi => max |lo| |hi|

/-- Embedding of AspectCalculator._get_aspect_orb. -/
def get_aspect_orb (a : AspectName) (p1 p2 : Planet) : ℚ :=
  max (orb_major p1) (orb_major p2) * aspect_orb_factor a

/-- Embedding of AspectCalculator._normalize_angle (Python angle % 360). -/
def normalize_angle (angle : ℚ) : ℚ := mod360 angle

/-- Embedding of AspectCalculator._calculate_aspect_difference: both longitudes reduced
modulo 360, shorter-arc separation, then distance from the aspect angle. -/
def calculate_aspect_difference (lon1 lon2 aspect_ang : ℚ) : ℚ :=
  let l1 := normalize_angle lon1
  let l2 := normalize_angle lon2
  let diff := |l1 - l2|
  let diff2 := if diff > 180 then 360 - diff else diff
  |diff2 - aspect_ang|

/-- Embedding of AspectCalculator._is_aspect_applying: the same difference evaluated one
minute later must have decreased. -/
def is_aspect_applying (o : ℚ → Planet → PosQ) (jd : ℚ) (p1 p2 : Planet)
    (aspect_ang : ℚ) : Bool :=
  let pos1 := get_precise_position o jd p1
  let pos2 := get_precise_position o jd p2
  let curr := calculate_aspect_difference pos1.longitude pos2.longitude aspect_ang
  let fjd := jd + 1/1440
  let f1 := get_precise_position o fjd p1
  let f2 := get_precise_position o fjd p2
  let fut := calculate_aspect_difference f1.longitude f2.longitude aspect_ang
  decide (fut < curr)

/-- The search window chosen by AspectCalculator._find_exact_aspect_time from the pair's
combined mean speed, in seconds. -/
def aspect_search_window (p1 p2 : Planet) : ℚ :=
  let velocidad_total := get_planet_speed p1 + get_planet_speed p2
  if velocidad_total > 10 then 21600
  else if velocidad_total > 2 then 43200
  else if velocidad_total > 1/2 then 86400
  else 172800

/-- The dictionary returned by AspectCalculator._find_exact_aspect_time on success. -/
structure AspectHit where
  date : ℚ
  pos1 : PosQ
  pos2 : PosQ
  difference : ℚ
  is_applying : Bool
deriving DecidableEq, Repr

/-- Embedding of AspectCalculator._find_exact_aspect_time: the generic engine
find_exact_time is run over the window with a 1-second tolerance and the converged
minimum is accepted only when within orb.  (The Python guard `if not exact_date` can
never fire for a datetime and is not modelled.) -/
def find_exact_aspect_time (o : ℚ → Planet → PosQ) (fuel : ℕ) (start_date : ℚ)
    (p1 p2 : Planet) (a : AspectName) : Option AspectHit :=
  let angle := aspect_angle a
  let end_date := start_date + aspect_search_window p1 p2
  let cond := fun t =>
    calculate_aspect_difference (get_precise_position o (julian_day t) p1).longitude
      (get_precise_position o (julian_day t) p2).longitude angle
  let r := find_exact_time cond start_date end_date 1 fuel
  let exact_date := r.1
  let min_diff := r.2
  if min_diff > get_aspect_orb a p1 p2 then none
  else
    let jd := julian_day exact_date
    some { date := exact_date
           pos1 := get_precise_position o jd p1
           pos2 := get_precise_position o jd p2
           difference := min_diff
           is_applying := is_aspect_applying o jd p1 p2 angle }

/-- The event classification tags of core.constants.EventType. -/
inductive EventType
  | LunaLlena
  | LunaNueva
  | EclipseSolar
  | EclipseLunar
  | IngresoSigno
  | RetrogradoInicio
  | RetrogradoFin
  | Aspecto
deriving DecidableEq, Repr

/-- The event record core.base_event.AstroEvent restricted to the fields the detectors
under study populate (the free-text description, whose float formatting is presentation
only, is not modelled). -/
structure AstroEvent where
  fecha_utc : ℚ
  tipo_evento : EventType
  planeta1 : Option Planet := none
  planeta2 : Option Planet := none
  longitud1 : Option ℚ := none
  longitud2 : Option ℚ := none
  velocidad1 : Option ℚ := none
  velocidad2 : Option ℚ := none
  tipo_aspecto : Option AspectName := none
  orbe : Option ℚ := none
  es_aplicativo : Option Bool := none
  elevacion : Option ℚ := none
  azimut : Option ℚ := none
  signo : Option String := none
  grado : Option ℚ := none
deriving DecidableEq, Repr

/-- Python's sorted(events, key=lambda x: x.fecha_utc): a stable sort by instant. -/
def sort_events (l : List AstroEvent) : List AstroEvent :=
  l.mergeSort (fun a b => decide (a.fecha_utc ≤ b.fecha_utc))

/-- The PLANETS dictionary keys in order. -/
def planet_names : List Planet :=
  [.Sol, .Luna, .Mercurio, .Venus, .Marte, .Jupiter, .Saturno, .Urano, .Neptuno, .Pluton]

/-- The aspect-detector body list: every planet except Luna, in dictionary order. -/
def non_moon_planets : List Planet := planet_names.filter (fun p => decide (p ≠ .Luna))

/-- The unordered pairs (i before j in dictionary order) built by calculate_aspects. -/
def planet_pairs : List (Planet × Planet) :=
  (List.range non_moon_planets.length).flatMap (fun i =>
    match non_moon_planets.get? i with
    | some p1 => ((non_moon_planets.drop (i+1)).map (fun p2 => (p1, p2)))
    | none => [])

/-- The ASPECTS dictionary keys in order. -/
def aspect_names_list : List AspectName :=
  [.Conjuncion, .Sextil, .Cuadratura, .Trigono, .Oposicion]

/-- The instants visited by a Python loop of the shape
while current < stop: ...; current += step (strict bound), in visiting order. -/
def scanListLt (start stop step : ℚ) : List ℚ :=
  if 0 < step ∧ start < stop then
    (List.range ⌈(stop - start) / step⌉.toNat).map (fun k : ℕ => start + (k : ℚ) * step)
  else []

/-- The accumulating state of calculate_aspects: the event list and the
processed_aspects set of (planet1, planet2, aspect, exact instant) tuples. -/
structure AspState where
  events : List AstroEvent
  processed : List (Planet × Planet × AspectName × ℚ)
deriving DecidableEq, Repr

/-- The deduplication test of calculate_aspects: the candidate instant must be at least
12 hours (43200 seconds) away from every already-recorded instant for the same pair and
aspect. -/
def aspect_is_new (processed : List (Planet × Planet × AspectName × ℚ))
    (p1 p2 : Planet) (a : AspectName) (t : ℚ) : Bool :=
  processed.all (fun q =>
    decide (¬(q.1 = p1 ∧ q.2.1 = p2 ∧ q.2.2.1 = a ∧ |t - q.2.2.2| < 43200)))

/-- The AstroEvent built by calculate_aspects for an accepted exact aspect. -/
def mk_aspect_event (p1 p2 : Planet) (a : AspectName) (hit : AspectHit) : AstroEvent :=
  { fecha_utc := hit.date
    tipo_evento := .Aspecto
    planeta1 := some p1
    planeta2 := some p2
    longitud1 := some hit.pos1.longitude
    longitud2 := some hit.pos2.longitude
    velocidad1 := some hit.pos1.speed
    velocidad2 := some hit.pos2.speed
    tipo_aspecto := some a
    orbe := some hit.difference
    es_aplicativo := some hit.is_applying }

/-- The body of calculate_aspects for one pair, one scan instant and one aspect: gate on
the orb, refine with _find_exact_aspect_time, deduplicate, and append. -/
def process_aspect_candidate (o : ℚ → Planet → PosQ) (fuel : ℕ) (p1 p2 : Planet)
    (st : AspState) (t : ℚ) (a : AspectName) : AspState :=
  let jd := julian_day t
  let pos1 := get_precise_position o jd p1
  let pos2 := get_precise_position o jd p2
  let diff := calculate_aspect_difference pos1.longitude pos2.longitude (aspect_angle a)
  if diff ≤ get_aspect_orb a p1 p2 then
    match find_exact_aspect_time o fuel t p1 p2 a with
    | some hit =>
      if aspect_is_new st.processed p1 p2 a hit.date then
        { events := st.events ++ [mk_aspect_event p1 p2 a hit]
          processed := (p1, p2, a, hit.date) :: st.processed }
      else st
    | none => st
  else st

/-- One scan instant of calculate_aspects: the inner for-loop over the aspect table. -/
def aspect_scan_step (o : ℚ → Planet → PosQ) (fuel : ℕ) (p1 p2 : Planet)
    (st : AspState) (t : ℚ) : AspState :=
  aspect_names_list.foldl (fun s a => process_aspect_candidate o fuel p1 p2 s t a) st

/-- Embedding of AspectCalculator.calculate_aspects: for every pair, a 5-minute-cadence
scan of the range feeding the per-aspect candidate logic, with the shared events and
processed_aspects state threaded through; the collected events are returned sorted by
instant. -/
def calculate_aspects (o : ℚ → Planet → PosQ) (fuel : ℕ)
    (start_date end_date : ℚ) : List AstroEvent :=
  let final := planet_pairs.foldl
    (fun st pr =>
      (scanListLt start_date end_date 300).foldl (aspect_scan_step o fuel pr.1 pr.2) st)
    { events := [], processed := [] }
  sort_events final.events

/-- The bisection loop of IngressCalculator._find_exact_ingress: halve the bracket,
keep the half whose midpoint is still in the from sign, until the width is within the
1-second tolerance.  Returns the final bracket; the source returns its lower end. -/
def find_exact_ingress_loop (body : ℚ → PosQ) (from_sign : ℤ) :
    ℕ → ℚ → ℚ → ℚ × ℚ
  | 0, s, e => (s, e)
  | fuel+1, s, e =>
    if e - s > 1 then
      let mid := s + (e - s) / 2
      let pos := math_calculate_planet_position body (julian_day mid)
      let current_sign := pytrunc (pos.longitude / 30)
      if current_sign = from_sign then find_exact_ingress_loop body from_sign fuel mid e
      else find_exact_ingress_loop body from_sign fuel s mid
    else (s, e)

/-- Embedding of IngressCalculator._find_exact_ingress (the to_sign argument is
accepted and unused, as in the source). -/
def find_exact_ingress (body : ℚ → PosQ) (start_date end_date : ℚ)
    (from_sign _to_sign : ℤ) (fuel : ℕ) : ℚ :=
  (find_exact_ingress_loop body from_sign fuel start_date end_date).1

/-- One step of the per-minute second phase of NodeCalculator._find_exact_ingress,
tracking (best_date, min_distance, best_pos) with strict improvement. -/
def node_refine_step (node : ℚ → PosQ) (to_sign : ℤ)
    (st : Option (ℚ × ℚ × NodePos)) (t : ℚ) : Option (ℚ × ℚ × NodePos) :=
  let pos := calculate_node_position node t
  let distance := |pos.longitude - (to_sign : ℚ) * 30|
  match st with
  | none => some (t, distance, pos)
  | some (bd, m, bp) => if distance < m then some (t, distance, pos) else some (bd, m, bp)

/-- Embedding of NodeCalculator._find_exact_ingress: an hourly scan until a sample has
left the from sign, then a per-minute scan of the preceding hour minimizing the distance
to the target sign boundary.  This is the source's algorithm, which is not the bisection
used by the planetary ingress detector. -/
def node_find_exact_ingress (node : ℚ → PosQ) (start_date end_date : ℚ)
    (from_sign to_sign : ℤ) : Option NodePos :=
  let firstOut := (scanList start_date end_date 3600).find? (fun t =>
    decide (pytrunc ((calculate_node_position node t).longitude / 30) ≠ from_sign))
  match firstOut with
  | none => none
  | some c =>
    let r := (scanList (c - 3600) c 60).foldl (node_refine_step node to_sign) none
    r.map (fun x => x.2.2)

/-- The planet list iterated by calculate_retrogrades: the PLANETS keys with Sol and
Luna skipped. -/
def retro_planets : List Planet :=
  planet_names.filter (fun p => decide (p ≠ .Sol ∧ p ≠ .Luna))

/-- The coarse scan cadence of calculate_retrogrades: the table interval, overridden to
4 hours for Mercurio. -/
def retro_scan_interval (p : Planet) : ℚ :=
  if p = .Mercurio then 14400 else retrograde_search_interval p

/-- The minimum time between stations enforced by calculate_retrogrades: 30 days for
Mercurio, 60 days otherwise, in seconds. -/
def retro_min_time (p : Planet) : ℚ :=
  if p = .Mercurio then 2592000 else 5184000

/-- The per-planet loop state of calculate_retrogrades, together with the
instance-level shared state: the running was_retrograde flag, the time of the last
recorded station, the accumulated events, and the processed_events identifier set
(planet, event type, year-month bucket of the station instant). -/
structure RetroState where
  was_retrograde : Option Bool
  retro_start : Option ℚ
  events : List AstroEvent
  processed : List (Planet × EventType × ℤ)
deriving DecidableEq, Repr

/-- One coarse sample of the calculate_retrogrades loop for one planet.  The ym
function abstracts strftime of the year-month used in the deduplication identifier;
it is an external calendar conversion of the instant. -/
def retro_step (lon : ℚ → ℚ) (ym : ℚ → ℤ) (p : Planet) (ivl : ℚ)
    (st : RetroState) (t : ℚ) : RetroState :=
  let pos := retro_calculate_planet_position lon t
  let is_retro : Bool := decide (pos.speed < 0)
  let st1 :=
    match st.was_retrograde with
    | none => st
    | some w =>
      if is_retro ≠ w then
        let ok := match st.retro_start with
          | none => true
          | some rs => decide (t - rs ≥ retro_min_time p)
        if ok then
          match find_station_point lon (t - ivl) (t + ivl) p is_retro with
          | some station =>
            let etype := if is_retro then EventType.RetrogradoInicio
              else EventType.RetrogradoFin
            let key := (p, etype, ym station.date)
            if key ∈ st.processed then st
            else { st with
                   events := st.events ++
                     [({ fecha_utc := station.date, tipo_evento := etype } : AstroEvent)]
                   processed := key :: st.processed
                   retro_start := some station.date }
          | none => st
        else st
      else st
  { st1 with was_retrograde := some is_retro }

/-- The shared accumulating state of calculate_retrogrades across planets. -/
structure RetroAcc where
  events : List AstroEvent
  processed : List (Planet × EventType × ℤ)
deriving DecidableEq, Repr

/-- The scan of calculate_retrogrades for one planet: fresh was_retrograde and
retro_start, shared events and processed set. -/
def retro_planet_scan (lon : Planet → ℚ → ℚ) (ym : ℚ → ℤ) (start_date end_date : ℚ)
    (acc : RetroAcc) (p : Planet) : RetroAcc :=
  let ivl := retro_scan_interval p
  let final := (scanListLt start_date end_date ivl).foldl (retro_step (lon p) ym p ivl)
    { was_retrograde := none, retro_start := none
      events := acc.events, processed := acc.processed }
  { events := final.events, processed := final.processed }

/-- Embedding of RetrogradeCalculator.calculate_retrogrades.  The per-planet jd-indexed
longitude oracle is lon; processed0 is the instance's processed_events set at entry
(empty for a fresh calculator).  The collected events are returned sorted by instant. -/
def calculate_retrogrades (lon : Planet → ℚ → ℚ) (ym : ℚ → ℤ)
    (start_date end_date : ℚ) (processed0 : List (Planet × EventType × ℤ)) :
    List AstroEvent :=
  let acc := retro_planets.foldl (retro_planet_scan lon ym start_date end_date)
    { events := [], processed := processed0 }
  sort_events acc.events

/-- The external collaborators of EclipseCalculator.calculate_eclipses: the ephem
syzygy searchers and the swe positions at a syzygy instant, plus the observer-frame
altitude and azimuth (already converted to degrees, absorbing the 180/pi factor).
Instants, ephem dates and julian days are identified on one rational day scale, which
is legitimate because all three are affine in the instant and feed only the oracle. -/
structure EclipseOracle where
  next_new_moon : ℚ → ℚ
  next_full_moon : ℚ → ℚ
  moon_lon : ℚ → ℚ
  moon_lat : ℚ → ℚ
  sun_lon : ℚ → ℚ
  node_lon : ℚ → ℚ
  sun_alt : ℚ → ℚ
  sun_az : ℚ → ℚ
  moon_alt : ℚ → ℚ
  moon_az : ℚ → ℚ

/-- Embedding of EclipseCalculator._get_node_distance_and_type: distance of the moon to
the nearer node (signed negative toward the south node), then the solar or lunar
decision table. -/
def get_node_distance_and_type (o : EclipseOracle) (jd : ℚ) (is_solar : Bool) :
    ℚ × Option EclipseKind :=
  let moon_lon := o.moon_lon jd
  let moon_lat := |o.moon_lat jd|
  let sun_lon := o.sun_lon jd
  let node_lon := o.node_lon jd
  let dist_north0 := |moon_lon - node_lon|
  let dist_south0 := |moon_lon - (node_lon + 180)|
  let dist_north := if dist_north0 > 180 then 360 - dist_north0 else dist_north0
  let dist_south := if dist_south0 > 180 then 360 - dist_south0 else dist_south0
  if dist_north ≤ dist_south then
    if is_solar then solar_eclipse_type dist_north moon_lat dist_north
    else lunar_eclipse_type dist_north moon_lat sun_lon moon_lon dist_north
  else
    if is_solar then solar_eclipse_type dist_south moon_lat (-dist_south)
    else lunar_eclipse_type dist_south moon_lat sun_lon moon_lon (-dist_south)

/-- The new-moon loop of calculate_eclipses: walk successive new moons until the range
is exhausted, appending a solar-eclipse event whenever the classifier fires (Python's
`if eclipse_type:` truthiness test, i.e. the classification is present).  The fuel
bounds the number of iterations. -/
def solar_eclipse_scan (o : EclipseOracle) (end_date : ℚ) : ℕ → ℚ → List AstroEvent
  | 0, _ => []
  | fuel+1, date =>
    if date < end_date then
      let next_new := o.next_new_moon date
      if next_new ≥ end_date then []
      else
        let jd := next_new
        let r := get_node_distance_and_type o jd true
        let rest := solar_eclipse_scan o end_date fuel (next_new + 1)
        if r.2.isSome then
          let lon := o.sun_lon jd
          { fecha_utc := next_new
            tipo_evento := EventType.EclipseSolar
            elevacion := some (o.sun_alt next_new)
            azimut := some (o.sun_az next_new)
            longitud1 := some lon
            signo := pyListGet SIGNS (pytrunc (lon / 30))
            grado := some (pymod lon 30) } :: rest
        else rest
    else []

/-- The full-moon loop of calculate_eclipses, appending lunar-eclipse events under the
same presence test. -/
def lunar_eclipse_scan (o : EclipseOracle) (end_date : ℚ) : ℕ → ℚ → List AstroEvent
  | 0, _ => []
  | fuel+1, date =>
    if date < end_date then
      let next_full := o.next_full_moon date
      if next_full ≥ end_date then []
      else
        let jd := next_full
        let r := get_node_distance_and_type o jd false
        let rest := lunar_eclipse_scan o end_date fuel (next_full + 1)
        if r.2.isSome then
          let lon := o.moon_lon jd
          { fecha_utc := next_full
            tipo_evento := EventType.EclipseLunar
            elevacion := some (o.moon_alt next_full)
            azimut := some (o.moon_az next_full)
            longitud1 := some lon
            signo := pyListGet SIGNS (pytrunc (lon / 30))
            grado := some (pymod lon 30) } :: rest
        else rest
    else []

/-- Embedding of EclipseCalculator.calculate_eclipses: the solar events collected over
all new moons of the range, followed by the lunar events collected over all full moons;
the source returns this concatenation without a final sort. -/
def calculate_eclipses (o : EclipseOracle) (start_date end_date : ℚ) (fuel : ℕ) :
    List AstroEvent :=
  solar_eclipse_scan o end_date fuel start_date ++
    lunar_eclipse_scan o end_date fuel start_date

/-- The separation property asserted pairwise on emitted aspect events: events for the
same pair and aspect type are at least 12 hours (43200 seconds) apart. -/
def aspectSep (e1 e2 : AstroEvent) : Prop :=
  (e1.planeta1 = e2.planeta1 ∧ e1.planeta2 = e2.planeta2 ∧
    e1.tipo_aspecto = e2.tipo_aspecto) → |e1.fecha_utc - e2.fecha_utc| ≥ 43200

/-- The internal invariant of calculate_aspects's state: every emitted event is
registered in processed_aspects under its own pair, aspect and exact instant, and the
emitted events are pairwise separated. -/
def aspectInv (st : AspState) : Prop :=
  (∀ ev ∈ st.events, ∃ q ∈ st.processed,
    ev.planeta1 = some q.1 ∧ ev.planeta2 = some q.2.1 ∧
    ev.tipo_aspecto = some q.2.2.1 ∧ ev.fecha_utc = q.2.2.2) ∧
  List.Pairwise aspectSep st.events

/-- A concrete jd-indexed longitude oracle (a slowing prograde body): the derived speed
at an instant t seconds is (14400 - t) / 5 degrees/day, strictly decreasing over the
sampled range, with all longitudes inside the interval from 0 to 360. -/
def exStationLon (j : ℚ) : ℚ := mod360 (3240 * j - 8640 * j ^ 2)

/-- A concrete condition function for find_exact_time exercising a tie between the
sampled instants 45 and 54 at the minimal value 3. -/
def exTieCond : ℚ → ℚ := fun t =>
  if t = 0 then 10 else if t = 27 then 5 else if t = 54 then 3 else if t = 81 then 10
  else if t = 45 then 3 else if t = 63 then 8 else if t = 39 then 4
  else if t = 51 then 4 else 100

/-- A concrete ephemeris oracle whose instantaneous-speed field is 1 while the
longitude is constantly 0, so the two-sample derived speed is 0. -/
def exConstOracle : ℚ → Planet → PosQ :=
  fun _ _ => { longitude := 0, latitude := 0, distance := 0, speed := 1 }

/-- The same oracle shape for the true node. -/
def exConstNode : ℚ → PosQ :=
  fun _ => { longitude := 0, latitude := 0, distance := 0, speed := 1 }

/-- A concrete node oracle crossing the Aries/Tauro boundary (longitude 30) at the
instant 1815 seconds: longitude 29 + t/1815 as a function of the instant t. -/
def exIngressNode : ℚ → PosQ :=
  fun jd => { longitude := 29 + 86400 * jd / 1815, latitude := 0, distance := 0, speed := 0 }

/-- The node dictionary the nodal ingress finder returns on exIngressNode over the
bracket from 0 to 7200 seconds. -/
def exIngressHit : NodePos :=
  { date := 1800, longitude := 3629/121, latitude := 0, distance := 0, speed := 0 }

/-- A concrete syzygy oracle with one new moon at day 60 and one full moon at day 10,
both classified as eclipses (moon on the node, latitude 0.3). -/
def exEclipseOracle : EclipseOracle :=
  { next_new_moon := fun d => if d < 61 then 60 else 200
    next_full_moon := fun d => if d < 11 then 10 else 200
    moon_lon := fun _ => 0
    moon_lat := fun _ => 3/10
    sun_lon := fun _ => 0
    node_lon := fun _ => 0
    sun_alt := fun _ => 0
    sun_az := fun _ => 0
    moon_alt := fun _ => 0
    moon_az := fun _ => 0 }

/-- A concrete syzygy oracle that always makes progress (used to discharge the
progress hypotheses of the eclipse ordering theorem). -/
def exProgressOracle : EclipseOracle :=
  { next_new_moon := fun d => d + 29
    next_full_moon := fun d => d + 29
    moon_lon := fun _ => 0
    moon_lat := fun _ => 3/10
    sun_lon := fun _ => 0
    node_lon := fun _ => 0
    sun_alt := fun _ => 0
    sun_az := fun _ => 0
    moon_alt := fun _ => 0
    moon_az := fun _ => 0 }

/-- A concrete longitude oracle taking the value 359 at jd 0 and 1 elsewhere (in
particular at jd + 1 hour), exercising the 0/360 wraparound of the derived speed. -/
def exWrapLon : ℚ → ℚ := fun t => if t = 0 then 359 else 1

/-- The non-straddling counterpart of exWrapLon: 1 at jd 0 and 3 elsewhere. -/
def exPlainLon : ℚ → ℚ := fun t => if t = 0 then 1 else 3

/-- The wraparound correction that calculate_speed applies to a longitude difference
(named here so the invariance lemmas can speak about it; calculate_speed inlines it). -/
def wrapdiff (d : ℚ) : ℚ :=
  if |d| > 180 then (if d > 0 then d - 360 else d + 360) else d

/-- Canonical shorter-arc length of a longitude difference, a 360-periodic function of
the difference, used to state the wraparound-invariance results. -/
def angDist (d : ℚ) : ℚ := min (mod360 d) (360 - mod360 d)

/-- Helper: every index between 0 and 11 addresses the 12-entry sign table. -/
theorem pyListGet_SIGNS_isSome (i : ℤ) (h0 : 0 ≤ i) (h1 : i ≤ 11) :
    (pyListGet SIGNS i).isSome = true := by
  interval_cases i <;> decide

/-- Helper: an index of 12 or more falls off the sign table. -/
theorem pyListGet_SIGNS_none (i : ℤ) (h : 12 ≤ i) : pyListGet SIGNS i = none := by
  unfold pyListGet
  rw [if_pos (by omega)]
  apply List.get?_eq_none.mpr
  show (12 : ℕ) ≤ i.toNat
  omega

/-- Helper: the retained instant of a fetUpdate is the new instant or the incumbent. -/
theorem fetUpdate_fst_bounds {L H : ℚ} (bm : ℚ × ℚ) (d v : ℚ) (h1 : L ≤ bm.1)
    (h2 : bm.1 ≤ H) (h3 : L ≤ d) (h4 : d ≤ H) :
    L ≤ (fetUpdate bm d v).1 ∧ (fetUpdate bm d v).1 ≤ H := by
  unfold fetUpdate
  split_ifs
  · exact ⟨h3, h4⟩
  · exact ⟨h1, h2⟩

/-- Helper: a fetUpdate never increases the tracked minimum. -/
theorem fetUpdate_snd_le (bm : ℚ × ℚ) (d v : ℚ) : (fetUpdate bm d v).2 ≤ bm.2 := by
  unfold fetUpdate
  split_ifs with h
  · exact le_of_lt h
  · exact le_refl _

/-- Invariant of the ternary loop of find_exact_time: the bracket only shrinks within
itself, and the tracked best instant stays inside any interval enclosing the bracket
and the incumbent. -/
theorem fet_loop_inv (f : ℚ → ℚ) (tol L H : ℚ) :
    ∀ (fuel : ℕ) (s e : ℚ) (bm : ℚ × ℚ), L ≤ s → s ≤ e → e ≤ H → L ≤ bm.1 → bm.1 ≤ H →
      (L ≤ (fet_loop f tol fuel s e bm).1 ∧
        (fet_loop f tol fuel s e bm).1 ≤ (fet_loop f tol fuel s e bm).2.1 ∧
        (fet_loop f tol fuel s e bm).2.1 ≤ H) ∧
      L ≤ (fet_loop f tol fuel s e bm).2.2.1 ∧ (fet_loop f tol fuel s e bm).2.2.1 ≤ H := by
  intro fuel
  induction fuel with
  | zero =>
    intro s e bm h1 h2 h3 h4 h5
    exact ⟨⟨h1, h2, h3⟩, h4, h5⟩
  | succ n ih =>
    intro s e bm h1 h2 h3 h4 h5
    have key : ∀ (d1 d2 v1 v2 : ℚ), L ≤ d1 → d1 ≤ H → L ≤ d2 → d2 ≤ H →
        L ≤ (fetUpdate (fetUpdate bm d1 v1) d2 v2).1 ∧
          (fetUpdate (fetUpdate bm d1 v1) d2 v2).1 ≤ H := by
      intro d1 d2 v1 v2 a1 a2 a3 a4
      have hb := fetUpdate_fst_bounds bm d1 v1 h4 h5 a1 a2
      exact fetUpdate_fst_bounds _ d2 v2 hb.1 hb.2 a3 a4
    simp only [fet_loop]
    split_ifs
    all_goals first
      | exact ⟨⟨h1, h2, h3⟩, h4, h5⟩
      | exact ih _ _ _ (by linarith) (by linarith) (by linarith)
          (key _ _ _ _ (by linarith) (by linarith) (by linarith) (by linarith)).1
          (key _ _ _ _ (by linarith) (by linarith) (by linarith) (by linarith)).2

/-- The ternary loop never increases the tracked minimum. -/
theorem fet_loop_min_le (f : ℚ → ℚ) (tol : ℚ) :
    ∀ (fuel : ℕ) (s e : ℚ) (bm : ℚ × ℚ),
      (fet_loop f tol fuel s e bm).2.2.2 ≤ bm.2 := by
  intro fuel
  induction fuel with
  | zero => intro s e bm; exact le_refl _
  | succ n ih =>
    intro s e bm
    simp only [fet_loop]
    split_ifs
    all_goals first
      | exact le_refl _
      | exact le_trans (ih _ _ _)
          (le_trans (fetUpdate_snd_le _ _ _) (fetUpdate_snd_le _ _ _))

/-- The final refinement keeps the best instant inside any interval containing the
final bracket and the incumbent best. -/
theorem fet_final_fst_bounds (f : ℚ → ℚ) (r : ℚ × ℚ × ℚ × ℚ) {L H : ℚ}
    (h1 : L ≤ r.1) (h2 : r.1 ≤ r.2.1) (h3 : r.2.1 ≤ H) (h4 : L ≤ r.2.2.1)
    (h5 : r.2.2.1 ≤ H) :
    L ≤ (fet_final f r).1 ∧ (fet_final f r).1 ≤ H := by
  have hb := fetUpdate_fst_bounds (r.2.2.1, r.2.2.2) r.1 (f r.1) h4 h5 h1
    (le_trans h2 h3)
  have hb2 := fetUpdate_fst_bounds _ r.2.1 (f r.2.1) hb.1 hb.2 (le_trans h1 h2) h3
  simp only [fet_final]
  split_ifs with hne hmv hden halpha hiv
  · obtain ⟨ha0, ha1⟩ := halpha
    constructor
    · have : 0 ≤ 1/2 * (f r.1 - f r.2.1) / (f r.1 - 2 * f (r.1 + (r.2.1 - r.1)/2) + f r.2.1)
          * (r.2.1 - r.1) := mul_nonneg (le_of_lt ha0) (by linarith)
      linarith
    · have := mul_le_mul_of_nonneg_right (le_of_lt ha1)
        (by linarith : (0:ℚ) ≤ r.2.1 - r.1)
      linarith
  · constructor <;> [linarith; linarith]
  · constructor <;> [linarith; linarith]
  · constructor <;> [linarith; linarith]
  · exact hb2
  · exact ⟨h4, h5⟩

/-- The final refinement never increases the tracked minimum. -/
theorem fet_final_snd_le (f : ℚ → ℚ) (r : ℚ × ℚ × ℚ × ℚ) :
    (fet_final f r).2 ≤ r.2.2.2 := by
  have hb : (fetUpdate (fetUpdate (r.2.2.1, r.2.2.2) r.1 (f r.1)) r.2.1 (f r.2.1)).2 ≤
      r.2.2.2 := le_trans (fetUpdate_snd_le _ _ _) (fetUpdate_snd_le _ _ _)
  simp only [fet_final]
  split_ifs with hne hmv hden halpha hiv
  · linarith
  · linarith
  · linarith
  · linarith
  · exact hb
  · exact le_refl _

/-- Helper: every visited instant of a nonstrict scan lies inside the bracket. -/
theorem scanList_mem_bounds {a b st t : ℚ} (h : t ∈ scanList a b st) :
    a ≤ t ∧ t ≤ b := by
  unfold scanList at h
  split_ifs at h with hg
  · obtain ⟨hst, hab⟩ := hg
    rw [List.mem_map] at h
    obtain ⟨k, hk, rfl⟩ := h
    rw [List.mem_range] at hk
    have hfl : (0:ℤ) ≤ ⌊(b - a) / st⌋ := Int.le_floor.mpr (by
      push_cast
      exact div_nonneg (by linarith) (le_of_lt hst))
    have hk' : (k:ℤ) ≤ ⌊(b - a) / st⌋ := by
      unfold scanCount at hk
      omega
    have hkq : (k:ℚ) ≤ (b - a) / st := by exact_mod_cast Int.le_floor.mp hk'
    have hmul : (k:ℚ) * st ≤ b - a := (le_div_iff₀ hst).mp hkq
    have hpos : (0:ℚ) ≤ (k:ℚ) * st := mul_nonneg (by positivity) (le_of_lt hst)
    constructor <;> linarith
  · simp at h

/-- Helper: the instant a + k·st is visited whenever k steps fit in the bracket. -/
theorem mem_scanList {a b st : ℚ} (k : ℕ) (hst : 0 < st) (hab : a ≤ b)
    (hk : (k:ℚ) * st ≤ b - a) : a + (k:ℚ) * st ∈ scanList a b st := by
  unfold scanList
  rw [if_pos ⟨hst, hab⟩, List.mem_map]
  refine ⟨k, ?_, rfl⟩
  rw [List.mem_range]
  have h1 : (k:ℤ) ≤ ⌊(b - a) / st⌋ :=
    Int.le_floor.mpr (by rw [le_div_iff₀ hst]; exact_mod_cast hk)
  unfold scanCount
  omega

/-- Helper: any state the coarse station scan produces is a genuine sample: its date is
in the scan list and its minimum and position were read off at that date. -/
theorem stationPhase1_foldl_shape (posAt : ℚ → PlanetPos) :
    ∀ (lst : List ℚ) (st : Option (ℚ × ℚ × PlanetPos)) (r : ℚ × ℚ × PlanetPos),
      lst.foldl (stationPhase1Step posAt) st = some r →
      st = some r ∨ (r.1 ∈ lst ∧ r.2.1 = |(posAt r.1).speed| ∧ r.2.2 = posAt r.1) := by
  intro lst
  induction lst with
  | nil =>
    intro st r h
    exact Or.inl h
  | cons t ts ih =>
    intro st r h
    rw [List.foldl_cons] at h
    rcases ih _ _ h with h1 | h2
    · cases st with
      | none =>
        simp only [stationPhase1Step] at h1
        injection h1 with h1
        subst h1
        exact Or.inr ⟨List.mem_cons_self _ _, rfl, rfl⟩
      | some q =>
        obtain ⟨bd, m, bp⟩ := q
        simp only [stationPhase1Step] at h1
        split_ifs at h1 with hlt
        · injection h1 with h1
          subst h1
          exact Or.inr ⟨List.mem_cons_self _ _, rfl, rfl⟩
        · exact Or.inl h1
    · exact Or.inr ⟨List.mem_cons_of_mem _ h2.1, h2.2⟩

/-- Helper: one refined-scan step always tracks a minimum, bounded by the new sample
and by any previous minimum. -/
theorem stationPhase2Step_min (posAt : ℚ → PlanetPos) (st : ℚ × Option ℚ × PlanetPos)
    (t : ℚ) :
    ∃ v, (stationPhase2Step posAt st t).2.1 = some v ∧ v ≤ |(posAt t).speed| ∧
      ∀ m0, st.2.1 = some m0 → v ≤ m0 := by
  obtain ⟨bd, mo, bp⟩ := st
  cases mo with
  | none =>
    refine ⟨|(posAt t).speed|, rfl, le_refl _, ?_⟩
    intro m0 hm
    simp at hm
  | some m =>
    simp only [stationPhase2Step]
    split_ifs with hlt
    · refine ⟨|(posAt t).speed|, rfl, le_refl _, ?_⟩
      intro m0 hm
      injection hm with hm
      subst hm
      exact le_of_lt hlt
    · refine ⟨m, rfl, le_of_not_lt hlt, ?_⟩
      intro m0 hm
      injection hm with hm
      subst hm
      exact le_refl _

/-- Helper: the refined scan's tracked minimum never increases. -/
theorem stationPhase2_foldl_mono (posAt : ℚ → PlanetPos) :
    ∀ (lst : List ℚ) (st : ℚ × Option ℚ × PlanetPos) (m0 : ℚ), st.2.1 = some m0 →
      ∃ m, (lst.foldl (stationPhase2Step posAt) st).2.1 = some m ∧ m ≤ m0 := by
  intro lst
  induction lst with
  | nil =>
    intro st m0 h
    exact ⟨m0, h, le_refl _⟩
  | cons t ts ih =>
    intro st m0 h
    rw [List.foldl_cons]
    obtain ⟨v, hv, _, hvm⟩ := stationPhase2Step_min posAt st t
    obtain ⟨m, hm, hmv⟩ := ih _ _ hv
    exact ⟨m, hm, le_trans hmv (hvm m0 h)⟩

/-- Helper: the refined scan's final minimum is at most the value at every sample. -/
theorem stationPhase2_foldl_min_mem (posAt : ℚ → PlanetPos) :
    ∀ (lst : List ℚ) (st : ℚ × Option ℚ × PlanetPos) (t : ℚ) (m : ℚ), t ∈ lst →
      (lst.foldl (stationPhase2Step posAt) st).2.1 = some m →
      m ≤ |(posAt t).speed| := by
  intro lst
  induction lst with
  | nil =>
    intro st t m ht
    cases ht
  | cons t' ts ih =>
    intro st t m ht hm
    rw [List.foldl_cons] at hm
    rcases List.mem_cons.mp ht with rfl | hts
    · obtain ⟨v, hv, hvt, _⟩ := stationPhase2Step_min posAt st t
      obtain ⟨m', hm', hm'v⟩ := stationPhase2_foldl_mono posAt ts _ _ hv
      rw [hm] at hm'
      injection hm' with hh
      subst hh
      exact le_trans hm'v hvt
    · exact ih _ _ _ hts hm

/-- Helper: one refined-scan step leaves the state alone or records the sample. -/
theorem stationPhase2Step_shape (posAt : ℚ → PlanetPos) (st : ℚ × Option ℚ × PlanetPos)
    (t : ℚ) :
    stationPhase2Step posAt st t = st ∨
    ((stationPhase2Step posAt st t).1 = t ∧
      (stationPhase2Step posAt st t).2.2 = posAt t) := by
  obtain ⟨bd, mo, bp⟩ := st
  cases mo with
  | none => exact Or.inr ⟨rfl, rfl⟩
  | some m =>
    simp only [stationPhase2Step]
    split_ifs with hlt
    · exact Or.inr ⟨rfl, rfl⟩
    · exact Or.inl rfl

/-- Helper: any state the refined scan produces is the initial state or a genuine
sample of the scan list. -/
theorem stationPhase2_foldl_shape (posAt : ℚ → PlanetPos) :
    ∀ (lst : List ℚ) (st : ℚ × Option ℚ × PlanetPos),
      lst.foldl (stationPhase2Step posAt) st = st ∨
      ((lst.foldl (stationPhase2Step posAt) st).1 ∈ lst ∧
        (lst.foldl (stationPhase2Step posAt) st).2.2 =
          posAt (lst.foldl (stationPhase2Step posAt) st).1) := by
  intro lst
  induction lst with
  | nil =>
    intro st
    exact Or.inl rfl
  | cons t ts ih =>
    intro st
    rw [List.foldl_cons]
    rcases ih (stationPhase2Step posAt st t) with h1 | h2
    · rcases stationPhase2Step_shape posAt st t with hs | hs
      · exact Or.inl (h1.trans hs)
      · refine Or.inr ⟨?_, ?_⟩
        · rw [h1, hs.1]
          exact List.mem_cons_self _ _
        · rw [h1, hs.2, hs.1]
    · exact Or.inr ⟨List.mem_cons_of_mem _ h2.1, h2.2⟩

/-- Helper: one final-sweep step always tracks a minimum, bounded by the new sample and
by any previous minimum. -/
theorem stationPhase3Step_min (posAt : ℚ → PlanetPos) (st : Option ℚ × PlanetPos)
    (t : ℚ) :
    ∃ v, (stationPhase3Step posAt st t).1 = some v ∧ v ≤ |(posAt t).speed| ∧
      ∀ m0, st.1 = some m0 → v ≤ m0 := by
  obtain ⟨mo, bp⟩ := st
  cases mo with
  | none =>
    refine ⟨|(posAt t).speed|, rfl, le_refl _, ?_⟩
    intro m0 hm
    simp at hm
  | some m =>
    simp only [stationPhase3Step]
    split_ifs with hlt
    · refine ⟨|(posAt t).speed|, rfl, le_refl _, ?_⟩
      intro m0 hm
      injection hm with hm
      subst hm
      exact le_of_lt hlt
    · refine ⟨m, rfl, le_of_not_lt hlt, ?_⟩
      intro m0 hm
      injection hm with hm
      subst hm
      exact le_refl _

/-- Helper: the final sweep's tracked minimum never increases. -/
theorem stationPhase3_foldl_mono (posAt : ℚ → PlanetPos) :
    ∀ (lst : List ℚ) (st : Option ℚ × PlanetPos) (m0 : ℚ), st.1 = some m0 →
      ∃ m, (lst.foldl (stationPhase3Step posAt) st).1 = some m ∧ m ≤ m0 := by
  intro lst
  induction lst with
  | nil =>
    intro st m0 h
    exact ⟨m0, h, le_refl _⟩
  | cons t ts ih =>
    intro st m0 h
    rw [List.foldl_cons]
    obtain ⟨v, hv, _, hvm⟩ := stationPhase3Step_min posAt st t
    obtain ⟨m, hm, hmv⟩ := ih _ _ hv
    exact ⟨m, hm, le_trans hmv (hvm m0 h)⟩

/-- Helper: one final-sweep step leaves the state alone or records the sample. -/
theorem stationPhase3Step_shape (posAt : ℚ → PlanetPos) (st : Option ℚ × PlanetPos)
    (t : ℚ) :
    stationPhase3Step posAt st t = st ∨ (stationPhase3Step posAt st t).2 = posAt t := by
  obtain ⟨mo, bp⟩ := st
  cases mo with
  | none => exact Or.inr rfl
  | some m =>
    simp only [stationPhase3Step]
    split_ifs with hlt
    · exact Or.inr rfl
    · exact Or.inl rfl

/-- Helper: the final sweep returns the initial position or a genuine sample. -/
theorem stationPhase3_foldl_shape (posAt : ℚ → PlanetPos) :
    ∀ (lst : List ℚ) (st : Option ℚ × PlanetPos),
      lst.foldl (stationPhase3Step posAt) st = st ∨
      ∃ t ∈ lst, (lst.foldl (stationPhase3Step posAt) st).2 = posAt t := by
  intro lst
  induction lst with
  | nil =>
    intro st
    exact Or.inl rfl
  | cons t ts ih =>
    intro st
    rw [List.foldl_cons]
    rcases ih (stationPhase3Step posAt st t) with h1 | h2
    · rcases stationPhase3Step_shape posAt st t with hs | hs
      · exact Or.inl (h1.trans hs)
      · refine Or.inr ⟨t, List.mem_cons_self _ _, ?_⟩
        rw [h1, hs]
    · obtain ⟨t0, ht0, heq⟩ := h2
      exact Or.inr ⟨t0, List.mem_cons_of_mem _ ht0, heq⟩

/-- Helper: the per-planet search intervals of the table are nonnegative. -/
theorem retrograde_search_interval_nonneg (p : Planet) :
    0 ≤ retrograde_search_interval p := by
  cases p <;> norm_num [retrograde_search_interval]

/-- Helper: the per-planet search intervals are positive for retrogradable bodies. -/
theorem retrograde_search_interval_pos (p : Planet) (hs : p ≠ .Sol) (hl : p ≠ .Luna) :
    0 < retrograde_search_interval p := by
  cases p <;> first
    | exact absurd rfl hs
    | exact absurd rfl hl
    | norm_num [retrograde_search_interval]

/-- Helper: the refined scan always produces a tracked minimum on a nonempty list. -/
theorem stationPhase2_foldl_some (posAt : ℚ → PlanetPos) :
    ∀ (lst : List ℚ) (st : ℚ × Option ℚ × PlanetPos), lst ≠ [] →
      ∃ m, (lst.foldl (stationPhase2Step posAt) st).2.1 = some m := by
  intro lst
  cases lst with
  | nil =>
    intro st h
    exact absurd rfl h
  | cons t ts =>
    intro st _
    rw [List.foldl_cons]
    obtain ⟨v, hv, _, _⟩ := stationPhase2Step_min posAt st t
    obtain ⟨m, hm, _⟩ := stationPhase2_foldl_mono posAt ts _ _ hv
    exact ⟨m, hm⟩

/-- Helper: the date recorded by _calculate_planet_position is the queried instant. -/
theorem retro_calculate_planet_position_date (lon : ℚ → ℚ) (t : ℚ) :
    (retro_calculate_planet_position lon t).date = t := rfl

/-- Claim C1 is false as stated: at node distance 5 and absolute latitude 0.3 the lunar
classifier lands in the tier for distances up to 6 degrees and returns Parcial, not
Total. -/
theorem claim_C1_counterexample :
    (lunar_eclipse_type 5 (3/10) 0 0 5).2 = some EclipseKind.Parcial ∧
    (lunar_eclipse_type 5 (3/10) 0 0 5).2 ≠ some EclipseKind.Total := by
  exact ⟨by decide, by decide⟩

/-- Claim C1 (amended): for a lunar syzygy whose node distance lies strictly above 3.8
and at most 6 degrees and whose absolute latitude is at most 0.85 degrees, in
particular at distance 5 and latitude 0.3, the classifier returns Partial. -/
theorem claim_C1 (node_distance moon_lat sun_lon moon_lon signed_distance : ℚ)
    (h1 : 38/10 < node_distance) (h2 : node_distance ≤ 6) (h3 : moon_lat ≤ 85/100) :
    (lunar_eclipse_type node_distance moon_lat sun_lon moon_lon signed_distance).2 =
      some EclipseKind.Parcial := by
  unfold lunar_eclipse_type
  split_ifs <;> first | rfl | linarith

/-- Witness for claim C1 at the concrete inputs of the claim. -/
theorem claim_C1_witness :
    (lunar_eclipse_type 5 (3/10) 0 0 5).2 = some EclipseKind.Parcial :=
  claim_C1 5 (3/10) 0 0 5 (by norm_num) (by norm_num) (by norm_num)

/-- Claim C4 is false as stated: an ephemeris oracle whose instantaneous-speed field is
1 on a constant longitude gives _get_precise_position and _calculate_node_position the
speed 1, while the two-sample derivation yields 0. -/
theorem claim_C4_counterexample :
    (get_precise_position exConstOracle 0 Planet.Sol).speed = 1 ∧
    (calculate_node_position exConstNode 0).speed = 1 ∧
    calculate_speed (fun j => (exConstOracle j Planet.Sol).longitude) 0 = 0 ∧
    retro_calculate_speed (fun j => (exConstNode j).longitude) 0 = 0 ∧
    (1 : ℚ) ≠ 0 :=
  ⟨rfl, rfl, by decide, by decide, by norm_num⟩

/-- Claim C4 (amended): the retrograde calculator's private speed routine and
math_utils.calculate_speed are the identical two-sample derivation, and
math_utils.calculate_planet_position uses that derivation; but the aspect detector's
_get_precise_position and the node detector's _calculate_node_position take the speed
field directly from the ephemeris call (swe.FLG_SPEED), not the two-sample
derivation. -/
theorem claim_C4 :
    (∀ (lon : ℚ → ℚ) (jd : ℚ), retro_calculate_speed lon jd = calculate_speed lon jd) ∧
    (∀ (body : ℚ → PosQ) (jd : ℚ),
      (math_calculate_planet_position body jd).speed =
        calculate_speed (fun j => (body j).longitude) jd) ∧
    (∀ (o : ℚ → Planet → PosQ) (jd : ℚ) (p : Planet),
      (get_precise_position o jd p).speed = (o jd p).speed) ∧
    (∀ (node : ℚ → PosQ) (t : ℚ),
      (calculate_node_position node t).speed = (node (julian_day t)).speed) :=
  ⟨fun _ _ => rfl, fun _ _ => rfl, fun _ _ _ => rfl, fun _ _ => rfl⟩

/-- Claim C8 is false as stated: on the condition function exTieCond over the bracket
from 0 to 81 with tolerance 30, the instants 45 and 54 are both evaluated and both
attain the minimal value 3, yet the search returns the later instant 54 (the value 3
was first encountered at 54; the strict-improvement update then ignores the tie at the
earlier instant 45). -/
theorem claim_C8_counterexample :
    find_exact_time exTieCond 0 81 30 10 = (54, 3) ∧
    (45:ℚ) ∈ find_exact_time_evals exTieCond 0 81 30 10 ∧
    (54:ℚ) ∈ find_exact_time_evals exTieCond 0 81 30 10 ∧
    exTieCond 45 = 3 ∧ exTieCond 54 = 3 ∧ (45:ℚ) < 54 :=
  ⟨by decide, by decide, by decide, by decide, by decide, by norm_num⟩

/-- Claim C8 (amended): find_exact_time's tie handling is first-encountered-wins, not
earliest-in-time: the tracked minimum is displaced only by a strictly smaller value, so
a sample tying the incumbent leaves it unchanged, and when the two trisection points of
a single iteration tie strictly below the incumbent the earlier point1 is retained; the
returned instant is therefore the first minimizer in evaluation order, which may be
later in time than another tied sample. -/
theorem claim_C8 (b m d v p1 p2 : ℚ) :
    (¬ v < m → fetUpdate (b, m) d v = (b, m)) ∧
    (v < m → fetUpdate (fetUpdate (b, m) p1 v) p2 v = (p1, v)) := by
  constructor
  · intro h
    simp [fetUpdate, h]
  · intro h
    simp [fetUpdate, h]

/-- Witness for claim C8 at concrete numbers. -/
theorem claim_C8_witness :
    (fetUpdate (2, 5) 9 7 = (2, 5)) ∧ (fetUpdate (fetUpdate (2, 5) 3 4) 6 4 = (3, 4)) :=
  ⟨(claim_C8 2 5 9 7 3 6).1 (by norm_num), (claim_C8 2 5 9 4 3 6).2 (by norm_num)⟩

/-- Claim C10 is false as stated for negative longitudes: at longitude -5 the index
int(lon / 30) truncates toward zero to 0, which lies inside 0..11, and the lookup
succeeds. -/
theorem claim_C10_counterexample :
    pytrunc ((-5 : ℚ) / 30) = 0 ∧ (format_position (-5)).isSome = true :=
  ⟨by decide, by decide⟩

/-- Claim C10 (amended): for longitudes in the interval from 0 (inclusive) to 360
(exclusive) the index int(lon / 30) lies in 0..11 and format_position's table lookup
succeeds; for longitudes of 360 or more the index exceeds 11 and the lookup fails;
the classmethod get_sign_name wraps the index modulo 12 and is total.  (For negative
longitudes the index can stay at 0 by truncation toward zero, or be a negative index
that Python list subscription resolves from the back, so the original claim's failure
does not hold there.) -/
theorem claim_C10 (lon : ℚ) :
    (0 ≤ lon → lon < 360 →
      0 ≤ pytrunc (lon / 30) ∧ pytrunc (lon / 30) ≤ 11 ∧
        (format_position lon).isSome = true) ∧
    (360 ≤ lon → 11 < pytrunc (lon / 30) ∧ format_position lon = none) ∧
    (get_sign_name lon).isSome = true := by
  refine ⟨fun h0 h1 => ?_, fun h360 => ?_, ?_⟩
  · have htr : pytrunc (lon / 30) = ⌊lon / 30⌋ := by
      unfold pytrunc
      rw [if_pos (by positivity)]
    have hlow : (0:ℤ) ≤ ⌊lon / 30⌋ := Int.le_floor.mpr (by positivity)
    have hhigh : ⌊lon / 30⌋ ≤ 11 := by
      have : ⌊lon / 30⌋ < 12 := Int.floor_lt.mpr (by
        rw [div_lt_iff₀ (by norm_num : (0:ℚ) < 30)]
        norm_num
        linarith)
      omega
    refine ⟨htr ▸ hlow, htr ▸ hhigh, ?_⟩
    have : (pyListGet SIGNS (pytrunc (lon / 30))).isSome = true :=
      pyListGet_SIGNS_isSome _ (htr ▸ hlow) (htr ▸ hhigh)
    simpa [format_position] using this
  · have htr : pytrunc (lon / 30) = ⌊lon / 30⌋ := by
      unfold pytrunc
      rw [if_pos (by positivity)]
    have h12 : (12:ℤ) ≤ ⌊lon / 30⌋ := Int.le_floor.mpr (by
      rw [le_div_iff₀ (by norm_num : (0:ℚ) < 30)]
      norm_num
      linarith)
    constructor
    · rw [htr]
      omega
    · simp [format_position, pyListGet_SIGNS_none _ (htr ▸ h12)]
  · apply pyListGet_SIGNS_isSome
    · exact Int.emod_nonneg _ (by norm_num)
    · have := Int.emod_lt_of_pos (pytrunc (lon / 30)) (by norm_num : (0:ℤ) < 12)
      omega

/-- Witness for claim C10 at concrete longitudes. -/
theorem claim_C10_witness :
    (0 ≤ pytrunc ((45:ℚ) / 30) ∧ pytrunc ((45:ℚ) / 30) ≤ 11 ∧
      (format_position 45).isSome = true) ∧
    (11 < pytrunc ((400:ℚ) / 30) ∧ format_position 400 = none) ∧
    (get_sign_name (-700)).isSome = true :=
  ⟨(claim_C10 45).1 (by norm_num) (by norm_num),
   (claim_C10 400).2.1 (by norm_num),
   (claim_C10 (-700)).2.2⟩

/-- Helper: the refined scan of the station finder returns its initial state or a
sample of its window. -/
theorem stationPhase2_shape (posAt : ℚ → PlanetPos) (bd1 : ℚ) (p1 : PlanetPos)
    (ivl : ℚ) :
    stationPhase2 posAt bd1 p1 ivl = (bd1, none, p1) ∨
    ((stationPhase2 posAt bd1 p1 ivl).1 ∈ scanList (bd1 - ivl) (bd1 + ivl) (ivl / 6) ∧
      (stationPhase2 posAt bd1 p1 ivl).2.2 = posAt (stationPhase2 posAt bd1 p1 ivl).1) :=
  stationPhase2_foldl_shape posAt _ _

/-- Helper: the final sweep returns its initial state or a sample of its window. -/
theorem stationPhase3_shape (posAt : ℚ → PlanetPos) (bd2 : ℚ) (m2o : Option ℚ)
    (p2 : PlanetPos) :
    stationPhase3 posAt bd2 m2o p2 = (m2o, p2) ∨
    ∃ t ∈ scanList (bd2 - 1800) (bd2 + 1800) 30,
      (stationPhase3 posAt bd2 m2o p2).2 = posAt t :=
  stationPhase3_foldl_shape posAt _ _

/-- Helper: the final sweep's tracked minimum never increases from its input. -/
theorem stationPhase3_mono (posAt : ℚ → PlanetPos) (bd2 : ℚ) (m2o : Option ℚ)
    (p2 : PlanetPos) (m0 : ℚ) (h : m2o = some m0) :
    ∃ m, (stationPhase3 posAt bd2 m2o p2).1 = some m ∧ m ≤ m0 :=
  stationPhase3_foldl_mono posAt _ _ m0 h

/-- Helper: for a positive interval the refined scan revisits the phase-1 best date
(the step ivl / 6 tiles the window of width 2 ivl), so its tracked minimum exists and
is at most the sampled value there. -/
theorem stationPhase2_min_at_center (posAt : ℚ → PlanetPos) (bd1 : ℚ) (p1 : PlanetPos)
    (ivl : ℚ) (hivl : 0 < ivl) :
    ∃ m2, (stationPhase2 posAt bd1 p1 ivl).2.1 = some m2 ∧
      m2 ≤ |(posAt bd1).speed| := by
  have hab : bd1 - ivl ≤ bd1 + ivl := by linarith
  have hst6 : (0:ℚ) < ivl / 6 := div_pos hivl (by norm_num)
  have hk6 : ((6:ℕ):ℚ) * (ivl / 6) ≤ (bd1 + ivl) - (bd1 - ivl) := by
    push_cast
    linarith
  have hmem := mem_scanList 6 hst6 hab hk6
  have heq : bd1 - ivl + ((6:ℕ):ℚ) * (ivl / 6) = bd1 := by
    push_cast
    ring
  rw [heq] at hmem
  obtain ⟨m2, hm2⟩ := stationPhase2_foldl_some posAt _ (bd1, none, p1)
    (List.ne_nil_of_mem hmem)
  exact ⟨m2, hm2, stationPhase2_foldl_min_mem posAt _ _ _ _ hmem hm2⟩

set_option maxRecDepth 40000 in
/-- Claim C2 is false as stated: on the oracle exStationLon with bracket 0 to 5400 for
Mercurio, the station finder returns the instant 12600, outside the bracket (phase 2
re-centres on the last coarse sample and phase 3 sweeps past it again). -/
theorem claim_C2_counterexample :
    (find_station_point exStationLon 0 5400 Planet.Mercurio true).map
      (fun p => p.date) = some 12600 ∧ ¬ ((12600:ℚ) ≤ 5400) :=
  ⟨by decide, by norm_num⟩

/-- Claim C2 (amended): find_exact_time always returns an instant inside the original
bracket; the station finder's three-stage search instead guarantees only the widened
bracket from start - interval - 30 min to end + interval + 30 min, where interval is
the planet's table interval divided by 4 (phase 2 scans best ± interval and phase 3
scans best ± 30 minutes), and its result can genuinely leave the original bracket. -/
theorem claim_C2 :
    (∀ (f : ℚ → ℚ) (s e tol : ℚ) (fuel : ℕ), s < e →
      s ≤ (find_exact_time f s e tol fuel).1 ∧ (find_exact_time f s e tol fuel).1 ≤ e) ∧
    (∀ (lon : ℚ → ℚ) (s e : ℚ) (p : Planet) (b : Bool) (pos : PlanetPos),
      find_station_point lon s e p b = some pos →
      s - retrograde_search_interval p / 4 - 1800 ≤ pos.date ∧
      pos.date ≤ e + retrograde_search_interval p / 4 + 1800) := by
  constructor
  · intro f s e tol fuel h
    have hinv := fet_loop_inv f tol s e fuel s e (s, f s) (le_refl s) (le_of_lt h)
      (le_refl e) (le_refl s) (le_of_lt h)
    exact fet_final_fst_bounds f _ hinv.1.1 hinv.1.2.1 hinv.1.2.2 hinv.2.1 hinv.2.2
  · intro lon s e p b pos h
    have hivl : (0:ℚ) ≤ retrograde_search_interval p / 4 :=
      div_nonneg (retrograde_search_interval_nonneg p) (by norm_num)
    simp only [find_station_point] at h
    cases hm : stationPhase1 (retro_calculate_planet_position lon) s e
        (retrograde_search_interval p / 4) with
    | none =>
      rw [hm] at h
      simp at h
    | some trip =>
      obtain ⟨bd1, m1, p1⟩ := trip
      rw [hm] at h
      simp only [Option.some.injEq] at h
      subst h
      unfold stationPhase1 at hm
      rcases stationPhase1_foldl_shape _ _ _ _ hm with h0 | ⟨hbd1, _, hp1⟩
      · cases h0
      have hbd1' : bd1 ∈ scanList s e (retrograde_search_interval p / 4) := hbd1
      have hp1' : p1 = retro_calculate_planet_position lon bd1 := hp1
      have hb1 := scanList_mem_bounds hbd1'
      rcases stationPhase2_shape (retro_calculate_planet_position lon) bd1 p1
          (retrograde_search_interval p / 4) with h2 | ⟨h2m, h2p⟩ <;>
        rcases stationPhase3_shape (retro_calculate_planet_position lon)
            (stationPhase2 (retro_calculate_planet_position lon) bd1 p1
              (retrograde_search_interval p / 4)).1
            (stationPhase2 (retro_calculate_planet_position lon) bd1 p1
              (retrograde_search_interval p / 4)).2.1
            (stationPhase2 (retro_calculate_planet_position lon) bd1 p1
              (retrograde_search_interval p / 4)).2.2 with h3 | ⟨t3, ht3, h3p⟩
      · have hd : (stationPhase3 (retro_calculate_planet_position lon)
            (stationPhase2 (retro_calculate_planet_position lon) bd1 p1
              (retrograde_search_interval p / 4)).1
            (stationPhase2 (retro_calculate_planet_position lon) bd1 p1
              (retrograde_search_interval p / 4)).2.1
            (stationPhase2 (retro_calculate_planet_position lon) bd1 p1
              (retrograde_search_interval p / 4)).2.2).2 = p1 := by
          rw [h3, h2]
        rw [hd, hp1', retro_calculate_planet_position_date]
        constructor <;> linarith [hb1.1, hb1.2]
      · rw [h2] at ht3
        have hbt : bd1 - 1800 ≤ t3 ∧ t3 ≤ bd1 + 1800 := scanList_mem_bounds ht3
        rw [h3p, retro_calculate_planet_position_date]
        constructor <;> linarith [hb1.1, hb1.2, hbt.1, hbt.2]
      · have hb2 := scanList_mem_bounds h2m
        have hd : (stationPhase3 (retro_calculate_planet_position lon)
            (stationPhase2 (retro_calculate_planet_position lon) bd1 p1
              (retrograde_search_interval p / 4)).1
            (stationPhase2 (retro_calculate_planet_position lon) bd1 p1
              (retrograde_search_interval p / 4)).2.1
            (stationPhase2 (retro_calculate_planet_position lon) bd1 p1
              (retrograde_search_interval p / 4)).2.2).2.date =
            (stationPhase2 (retro_calculate_planet_position lon) bd1 p1
              (retrograde_search_interval p / 4)).1 := by
          rw [h3, h2p, retro_calculate_planet_position_date]
        rw [hd]
        constructor <;> linarith [hb1.1, hb1.2, hb2.1, hb2.2]
      · have hb2 := scanList_mem_bounds h2m
        have hbt := scanList_mem_bounds ht3
        rw [h3p, retro_calculate_planet_position_date]
        constructor <;> linarith [hb1.1, hb1.2, hb2.1, hb2.2, hbt.1, hbt.2]

set_option maxRecDepth 40000 in
/-- Witness for claim C2 at concrete inputs: an identity condition function for the
engine half, and the exStationLon run for the station half. -/
theorem claim_C2_witness :
    (0 ≤ (find_exact_time (fun _ => 0) 0 1 1 0).1 ∧
      (find_exact_time (fun _ => 0) 0 1 1 0).1 ≤ 1) ∧
    (0 - retrograde_search_interval Planet.Mercurio / 4 - 1800 ≤
        (12600 : ℚ) ∧
      (12600 : ℚ) ≤ 5400 + retrograde_search_interval Planet.Mercurio / 4 + 1800) :=
  ⟨claim_C2.1 (fun _ => 0) 0 1 1 0 (by norm_num),
   claim_C2.2 exStationLon 0 5400 Planet.Mercurio true
     { date := 12600, longitude := 1155/4, speed := 360 } (by decide)⟩

/-- Claim C3 (confirmed): within one search the tracked minimum absolute value is
monotone across refinement stages.  For find_exact_time, the returned minimum is at
most the loop stage's minimum, which is at most the initial sample.  For the station
finder, although phase 2 reinitialises min_speed, its refined scan re-samples the phase-1
best date exactly (the step interval/6 tiles the window best ± interval), so the
phase-2 minimum is at most the phase-1 minimum, and phase 3 continues from the phase-2
minimum without reinitialisation. -/
theorem claim_C3 :
    (∀ (f : ℚ → ℚ) (s e tol : ℚ) (fuel : ℕ),
      (find_exact_time f s e tol fuel).2 ≤
          (fet_loop f tol fuel s e (s, f s)).2.2.2 ∧
        (fet_loop f tol fuel s e (s, f s)).2.2.2 ≤ f s) ∧
    (∀ (lon : ℚ → ℚ) (s e : ℚ) (p : Planet) (bd1 m1 : ℚ) (p1 : PlanetPos),
      p ≠ .Sol → p ≠ .Luna →
      stationPhase1 (retro_calculate_planet_position lon) s e
          (retrograde_search_interval p / 4) = some (bd1, m1, p1) →
      ∃ m2 m3 : ℚ,
        (stationPhase2 (retro_calculate_planet_position lon) bd1 p1
            (retrograde_search_interval p / 4)).2.1 = some m2 ∧ m2 ≤ m1 ∧
        (stationPhase3 (retro_calculate_planet_position lon)
            (stationPhase2 (retro_calculate_planet_position lon) bd1 p1
              (retrograde_search_interval p / 4)).1
            (stationPhase2 (retro_calculate_planet_position lon) bd1 p1
              (retrograde_search_interval p / 4)).2.1
            (stationPhase2 (retro_calculate_planet_position lon) bd1 p1
              (retrograde_search_interval p / 4)).2.2).1 = some m3 ∧ m3 ≤ m2) := by
  constructor
  · intro f s e tol fuel
    exact ⟨fet_final_snd_le f _, fet_loop_min_le f tol fuel s e (s, f s)⟩
  · intro lon s e p bd1 m1 p1 hs hl h1
    have hivl : (0:ℚ) < retrograde_search_interval p / 4 :=
      div_pos (retrograde_search_interval_pos p hs hl) (by norm_num)
    unfold stationPhase1 at h1
    rcases stationPhase1_foldl_shape _ _ _ _ h1 with h0 | ⟨_, hm1, _⟩
    · cases h0
    have hm1' : m1 = |(retro_calculate_planet_position lon bd1).speed| := hm1
    obtain ⟨m2, hm2, hm2b⟩ := stationPhase2_min_at_center
      (retro_calculate_planet_position lon) bd1 p1 _ hivl
    obtain ⟨m3, hm3, hm3le⟩ := stationPhase3_mono (retro_calculate_planet_position lon)
      (stationPhase2 (retro_calculate_planet_position lon) bd1 p1
        (retrograde_search_interval p / 4)).1
      (stationPhase2 (retro_calculate_planet_position lon) bd1 p1
        (retrograde_search_interval p / 4)).2.1
      (stationPhase2 (retro_calculate_planet_position lon) bd1 p1
        (retrograde_search_interval p / 4)).2.2 m2 hm2
    refine ⟨m2, m3, hm2, ?_, hm3, hm3le⟩
    rw [hm1']
    exact hm2b

set_option maxRecDepth 40000 in
/-- Witness for claim C3: the station half applied to the exStationLon run for
Mercurio (the engine half has no hypotheses). -/
theorem claim_C3_witness :
    ∃ m2 m3 : ℚ,
      (stationPhase2 (retro_calculate_planet_position exStationLon) 5400
          { date := 5400, longitude := 675/4, speed := 1800 }
          (retrograde_search_interval Planet.Mercurio / 4)).2.1 = some m2 ∧
        m2 ≤ 1800 ∧
      (stationPhase3 (retro_calculate_planet_position exStationLon)
          (stationPhase2 (retro_calculate_planet_position exStationLon) 5400
            { date := 5400, longitude := 675/4, speed := 1800 }
            (retrograde_search_interval Planet.Mercurio / 4)).1
          (stationPhase2 (retro_calculate_planet_position exStationLon) 5400
            { date := 5400, longitude := 675/4, speed := 1800 }
            (retrograde_search_interval Planet.Mercurio / 4)).2.1
          (stationPhase2 (retro_calculate_planet_position exStationLon) 5400
            { date := 5400, longitude := 675/4, speed := 1800 }
            (retrograde_search_interval Planet.Mercurio / 4)).2.2).1 = some m3 ∧
        m3 ≤ m2 :=
  claim_C3.2 exStationLon 0 5400 Planet.Mercurio 5400 1800
    { date := 5400, longitude := 675/4, speed := 1800 }
    (by decide) (by decide) (by decide)

/-- Helper: the Python reduction x % 360 is nonnegative. -/
theorem mod360_nonneg (x : ℚ) : 0 ≤ mod360 x := by
  unfold mod360 pymod
  have h := Int.floor_le (x / 360)
  linarith

/-- Helper: the Python reduction x % 360 stays below 360. -/
theorem mod360_lt (x : ℚ) : mod360 x < 360 := by
  unfold mod360 pymod
  have h := Int.lt_floor_add_one (x / 360)
  linarith

/-- Helper: reduction modulo 360 changes its argument by an integer number of turns. -/
theorem mod360_sub_int (x : ℚ) : ∃ k : ℤ, mod360 x = x + 360 * (k : ℚ) := by
  refine ⟨-⌊x / 360⌋, ?_⟩
  unfold mod360 pymod
  push_cast
  ring

/-- Helper: reduction modulo 360 is 360-periodic. -/
theorem mod360_add_int (x : ℚ) (k : ℤ) : mod360 (x + 360 * (k : ℚ)) = mod360 x := by
  unfold mod360 pymod
  have h : (x + 360 * (k : ℚ)) / 360 = x / 360 + (k : ℚ) := by
    field_simp
    ring
  rw [h, Int.floor_add_int]
  push_cast
  ring

/-- Helper: the shorter-arc length is 360-periodic. -/
theorem angDist_add_int (x : ℚ) (k : ℤ) : angDist (x + 360 * (k : ℚ)) = angDist x := by
  unfold angDist
  rw [mod360_add_int]

/-- Helper: on differences of in-range longitudes the magnitude of the wraparound
correction is exactly the shorter-arc length. -/
theorem abs_wrapdiff_eq_angDist (d : ℚ) (h1 : -360 < d) (h2 : d < 360) :
    |wrapdiff d| = angDist d := by
  rcases le_or_lt 0 d with hd | hd
  · have hfl : ⌊d / 360⌋ = 0 := by
      rw [Int.floor_eq_iff]
      constructor
      · push_cast
        positivity
      · push_cast
        rw [div_lt_iff₀ (by norm_num : (0:ℚ) < 360)]
        linarith
    have hm : mod360 d = d := by
      unfold mod360 pymod
      rw [hfl]
      push_cast
      ring
    unfold wrapdiff angDist
    rw [hm]
    split_ifs with habs hpos
    · rw [abs_of_nonneg hd] at habs
      rw [abs_of_nonpos (by linarith : d - 360 ≤ 0), min_eq_right (by linarith)]
      ring
    · rw [abs_of_nonneg hd] at habs
      linarith
    · rw [abs_of_nonneg hd] at habs
      rw [abs_of_nonneg hd, min_eq_left (by linarith)]
  · have hfl : ⌊d / 360⌋ = -1 := by
      rw [Int.floor_eq_iff]
      constructor
      · push_cast
        rw [le_div_iff₀ (by norm_num : (0:ℚ) < 360)]
        linarith
      · push_cast
        rw [div_lt_iff₀ (by norm_num : (0:ℚ) < 360)]
        linarith
    have hm : mod360 d = d + 360 := by
      unfold mod360 pymod
      rw [hfl]
      push_cast
      ring
    unfold wrapdiff angDist
    rw [hm]
    split_ifs with habs hpos
    · linarith
    · rw [abs_of_neg hd] at habs
      rw [abs_of_nonneg (by linarith : (0:ℚ) ≤ d + 360), min_eq_left (by linarith)]
    · rw [abs_of_neg hd] at habs
      rw [abs_of_neg hd, min_eq_right (by linarith)]
      ring

/-- Helper: the shorter-arc branch of _calculate_aspect_difference agrees with the
wraparound correction's magnitude on in-range differences. -/
theorem arcfold_eq_angDist (x : ℚ) (h1 : -360 < x) (h2 : x < 360) :
    (if |x| > 180 then 360 - |x| else |x|) = angDist x := by
  rw [← abs_wrapdiff_eq_angDist x h1 h2]
  unfold wrapdiff
  split_ifs with habs hpos
  · rw [abs_of_pos hpos, abs_of_nonpos (by linarith : x - 360 ≤ 0)]
    ring
  · have hx : x ≤ 0 := le_of_not_lt hpos
    rw [abs_of_nonpos hx, abs_of_nonneg (by linarith : (0:ℚ) ≤ x + 360)]
    ring
  · rfl

/-- Helper: _calculate_aspect_difference in terms of the canonical shorter arc of the
raw longitude difference. -/
theorem calculate_aspect_difference_eq (l1 l2 a : ℚ) :
    calculate_aspect_difference l1 l2 a = |angDist (l1 - l2) - a| := by
  simp only [calculate_aspect_difference, normalize_angle]
  have hb1 := mod360_nonneg l1
  have hb2 := mod360_lt l1
  have hb3 := mod360_nonneg l2
  have hb4 := mod360_lt l2
  have harc : (if |mod360 l1 - mod360 l2| > 180 then 360 - |mod360 l1 - mod360 l2|
      else |mod360 l1 - mod360 l2|) = angDist (l1 - l2) := by
    rw [arcfold_eq_angDist _ (by linarith) (by linarith)]
    obtain ⟨k1, hk1⟩ := mod360_sub_int l1
    obtain ⟨k2, hk2⟩ := mod360_sub_int l2
    have harg : mod360 l1 - mod360 l2 = (l1 - l2) + 360 * ((k1 - k2 : ℤ) : ℚ) := by
      push_cast
      linarith
    rw [harg, angDist_add_int]
  rw [harc]

/-- Claim C9 (confirmed): the derived speed's magnitude is invariant under rotating all
oracle longitudes by a common offset modulo 360, and the aspect angular difference is
invariant under a common rotation of both longitudes; in particular the 359-to-1
straddling speed equals the 1-to-3 speed and the aspect difference of 359 and 1 at
angle 0 is 2. -/
theorem claim_C9 :
    (∀ (lon : ℚ → ℚ) (c jd : ℚ), (∀ t, 0 ≤ lon t ∧ lon t < 360) →
      |calculate_speed (fun t => mod360 (lon t + c)) jd| = |calculate_speed lon jd|) ∧
    (∀ (l1 l2 a c : ℚ),
      calculate_aspect_difference (l1 + c) (l2 + c) a =
        calculate_aspect_difference l1 l2 a) ∧
    calculate_speed exWrapLon 0 = calculate_speed exPlainLon 0 ∧
    calculate_aspect_difference 359 1 0 = 2 := by
  refine ⟨?_, ?_, by decide, by decide⟩
  · intro lon c jd h
    have e1 : calculate_speed lon jd =
        wrapdiff (lon (jd + 1/24) - lon jd) * 24 := rfl
    have e2 : calculate_speed (fun t => mod360 (lon t + c)) jd =
        wrapdiff (mod360 (lon (jd + 1/24) + c) - mod360 (lon jd + c)) * 24 := rfl
    rw [e1, e2, abs_mul, abs_mul]
    congr 1
    obtain ⟨hx0, hx1⟩ := h jd
    obtain ⟨hy0, hy1⟩ := h (jd + 1/24)
    have hR0 := mod360_nonneg (lon (jd + 1/24) + c)
    have hR1 := mod360_lt (lon (jd + 1/24) + c)
    have hR2 := mod360_nonneg (lon jd + c)
    have hR3 := mod360_lt (lon jd + c)
    rw [abs_wrapdiff_eq_angDist _ (by linarith) (by linarith),
      abs_wrapdiff_eq_angDist _ (by linarith) (by linarith)]
    obtain ⟨k1, hk1⟩ := mod360_sub_int (lon (jd + 1/24) + c)
    obtain ⟨k2, hk2⟩ := mod360_sub_int (lon jd + c)
    have harg : mod360 (lon (jd + 1/24) + c) - mod360 (lon jd + c) =
        (lon (jd + 1/24) - lon jd) + 360 * ((k1 - k2 : ℤ) : ℚ) := by
      push_cast
      linarith
    rw [harg, angDist_add_int]
  · intro l1 l2 a c
    rw [calculate_aspect_difference_eq, calculate_aspect_difference_eq,
      show l1 + c - (l2 + c) = l1 - l2 from by ring]

/-- Witness for claim C9: the rotation-invariance half applied to the concrete
359-to-1 oracle rotated by 40 degrees. -/
theorem claim_C9_witness :
    |calculate_speed (fun t => mod360 (exWrapLon t + 40)) 0| =
      |calculate_speed exWrapLon 0| :=
  claim_C9.1 exWrapLon 40 0 (by
    intro t
    unfold exWrapLon
    split_ifs <;> norm_num)

/-- Helper: the bisection loop of the planetary ingress finder shrinks the bracket
within itself down to the 1-second tolerance (given enough halvings for the initial
width), and its lower end stays on the from-sign side whenever it starts there. -/
theorem find_exact_ingress_loop_spec (body : ℚ → PosQ) (from_sign : ℤ) :
    ∀ (fuel : ℕ) (s e : ℚ), s ≤ e → e - s ≤ 2 ^ fuel →
      s ≤ (find_exact_ingress_loop body from_sign fuel s e).1 ∧
      (find_exact_ingress_loop body from_sign fuel s e).1 ≤
        (find_exact_ingress_loop body from_sign fuel s e).2 ∧
      (find_exact_ingress_loop body from_sign fuel s e).2 ≤ e ∧
      (find_exact_ingress_loop body from_sign fuel s e).2 -
        (find_exact_ingress_loop body from_sign fuel s e).1 ≤ 1 ∧
      (pytrunc ((math_calculate_planet_position body (julian_day s)).longitude / 30) =
          from_sign →
        pytrunc ((math_calculate_planet_position body
          (julian_day (find_exact_ingress_loop body from_sign fuel s e).1)).longitude
            / 30) = from_sign) := by
  intro fuel
  induction fuel with
  | zero =>
    intro s e hse hpow
    refine ⟨le_refl _, hse, le_refl _, ?_, fun h => h⟩
    simpa using hpow
  | succ n ih =>
    intro s e hse hpow
    have hpow2 : (2:ℚ) ^ (n + 1) = 2 * 2 ^ n := by ring
    simp only [find_exact_ingress_loop]
    split_ifs with hw hsign
    · have hr := ih (s + (e - s) / 2) e (by linarith) (by
        rw [hpow2] at hpow
        linarith)
      exact ⟨by linarith [hr.1], hr.2.1, hr.2.2.1, hr.2.2.2.1,
        fun _ => hr.2.2.2.2 hsign⟩
    · have hr := ih s (s + (e - s) / 2) (by linarith) (by
        rw [hpow2] at hpow
        linarith)
      exact ⟨hr.1, hr.2.1, by linarith [hr.2.2.1], hr.2.2.2.1, hr.2.2.2.2⟩
    · exact ⟨le_refl _, hse, le_refl _, le_of_not_lt hw, fun h => h⟩

/-- Helper: any state the nodal per-minute refinement produces is a genuine sample:
the tracked distance and position were read off at the tracked date. -/
theorem node_refine_foldl_shape (node : ℚ → PosQ) (to_sign : ℤ) :
    ∀ (lst : List ℚ) (st : Option (ℚ × ℚ × NodePos)) (r : ℚ × ℚ × NodePos),
      lst.foldl (node_refine_step node to_sign) st = some r →
      st = some r ∨
      (r.1 ∈ lst ∧
        r.2.1 = |(calculate_node_position node r.1).longitude - (to_sign : ℚ) * 30| ∧
        r.2.2 = calculate_node_position node r.1) := by
  intro lst
  induction lst with
  | nil =>
    intro st r h
    exact Or.inl h
  | cons t ts ih =>
    intro st r h
    rw [List.foldl_cons] at h
    rcases ih _ _ h with h1 | h2
    · cases st with
      | none =>
        simp only [node_refine_step] at h1
        injection h1 with h1
        subst h1
        exact Or.inr ⟨List.mem_cons_self _ _, rfl, rfl⟩
      | some q =>
        obtain ⟨bd, m, bp⟩ := q
        simp only [node_refine_step] at h1
        split_ifs at h1 with hlt
        · injection h1 with h1
          subst h1
          exact Or.inr ⟨List.mem_cons_self _ _, rfl, rfl⟩
        · exact Or.inl h1
    · exact Or.inr ⟨List.mem_cons_of_mem _ h2.1, h2.2⟩

/-- Helper: the nodal per-minute refinement's tracked distance is minimal over the
scanned samples (and never exceeds the initial distance). -/
theorem node_refine_foldl_min (node : ℚ → PosQ) (to_sign : ℤ) :
    ∀ (lst : List ℚ) (st : Option (ℚ × ℚ × NodePos)) (r : ℚ × ℚ × NodePos),
      lst.foldl (node_refine_step node to_sign) st = some r →
      (∀ t ∈ lst,
        r.2.1 ≤ |(calculate_node_position node t).longitude - (to_sign : ℚ) * 30|) ∧
      (∀ q, st = some q → r.2.1 ≤ q.2.1) := by
  intro lst
  induction lst with
  | nil =>
    intro st r h
    refine ⟨fun t ht => absurd ht (List.not_mem_nil t), fun q hq => ?_⟩
    rw [List.foldl_nil] at h
    rw [hq] at h
    injection h with h
    rw [← h]
  | cons t ts ih =>
    intro st r h
    rw [List.foldl_cons] at h
    obtain ⟨hmin, hinit⟩ := ih _ _ h
    have hstep2 : ∃ q, node_refine_step node to_sign st t = some q ∧
        (q.2.1 ≤ |(calculate_node_position node t).longitude - (to_sign : ℚ) * 30| ∧
          ∀ q0, st = some q0 → q.2.1 ≤ q0.2.1) := by
      cases st with
      | none =>
        refine ⟨_, rfl, le_refl _, fun q0 hq0 => ?_⟩
        cases hq0
      | some q0 =>
        obtain ⟨bd, m, bp⟩ := q0
        simp only [node_refine_step]
        split_ifs with hlt
        · refine ⟨_, rfl, le_refl _, fun q1 hq1 => ?_⟩
          injection hq1 with hq1
          subst hq1
          exact le_of_lt hlt
        · refine ⟨_, rfl, le_of_not_lt hlt, fun q1 hq1 => ?_⟩
          injection hq1 with hq1
          subst hq1
          exact le_refl _
    obtain ⟨qs, hqs, hqt, hqinit⟩ := hstep2
    constructor
    · intro t' ht'
      rcases List.mem_cons.mp ht' with rfl | hts
      · exact le_trans (hinit _ hqs) hqt
      · exact hmin t' hts
    · intro q0 hq0
      exact le_trans (hinit _ hqs) (hqinit q0 hq0)

set_option maxRecDepth 40000 in
/-- Claim C5 is false as stated for the nodal detector: on a node oracle crossing the
boundary at the instant 1815, the nodal finder returns the whole-minute sample 1800,
which is 15 seconds from the crossing — far beyond a 1-second tolerance — while the
planetary bisection on the same longitude function converges to within 1 second of the
crossing. -/
theorem claim_C5_counterexample :
    (node_find_exact_ingress exIngressNode 0 7200 0 1).map (fun p => p.date) =
      some 1800 ∧
    (calculate_node_position exIngressNode 1815).longitude = 30 ∧
    ¬ (|(1800:ℚ) - 1815| ≤ 1) ∧
    find_exact_ingress exIngressNode 0 7200 0 1 50 = 464625/256 ∧
    |(464625/256 : ℚ) - 1815| ≤ 1 :=
  ⟨by decide, by decide, by norm_num, by decide, by norm_num [abs_le]⟩

/-- Claim C5 (amended): the planetary ingress finder is the described bisection —
repeatedly halving, keeping the half whose midpoint is in the from sign, until the
bracket width is at most the 1-second tolerance, returning the bracket's lower end,
which is on the from-sign side whenever the initial start is; the nodal ingress finder
is not a bisection: it takes the first hourly sample outside the from sign and then
scans the preceding hour at one-minute steps, returning the sample minimizing the
distance to the target sign boundary (minute, not sub-second, resolution). -/
theorem claim_C5 :
    (∀ (body : ℚ → PosQ) (from_sign to_sign : ℤ) (fuel : ℕ) (s e : ℚ),
      s ≤ e → e - s ≤ 2 ^ fuel →
      s ≤ find_exact_ingress body s e from_sign to_sign fuel ∧
      find_exact_ingress body s e from_sign to_sign fuel ≤ e ∧
      (∃ e', find_exact_ingress body s e from_sign to_sign fuel ≤ e' ∧ e' ≤ e ∧
        e' - find_exact_ingress body s e from_sign to_sign fuel ≤ 1) ∧
      (pytrunc ((math_calculate_planet_position body (julian_day s)).longitude / 30) =
          from_sign →
        pytrunc ((math_calculate_planet_position body
          (julian_day (find_exact_ingress body s e from_sign to_sign fuel))).longitude
            / 30) = from_sign)) ∧
    (∀ (node : ℚ → PosQ) (s e : ℚ) (fs ts : ℤ) (p : NodePos),
      node_find_exact_ingress node s e fs ts = some p →
      ∃ c ∈ scanList s e 3600,
        p.date ∈ scanList (c - 3600) c 60 ∧
        ∀ t ∈ scanList (c - 3600) c 60,
          |(calculate_node_position node p.date).longitude - (ts : ℚ) * 30| ≤
            |(calculate_node_position node t).longitude - (ts : ℚ) * 30|) := by
  constructor
  · intro body from_sign to_sign fuel s e hse hpow
    have hr := find_exact_ingress_loop_spec body from_sign fuel s e hse hpow
    exact ⟨hr.1, le_trans hr.2.1 hr.2.2.1,
      ⟨(find_exact_ingress_loop body from_sign fuel s e).2, hr.2.1, hr.2.2.1,
        hr.2.2.2.1⟩, hr.2.2.2.2⟩
  · intro node s e fs ts p h
    simp only [node_find_exact_ingress] at h
    cases hf : (scanList s e 3600).find? (fun t =>
        decide (pytrunc ((calculate_node_position node t).longitude / 30) ≠ fs)) with
    | none =>
      rw [hf] at h
      simp at h
    | some c =>
      simp only [hf] at h
      cases hfold : (scanList (c - 3600) c 60).foldl (node_refine_step node ts)
          none with
      | none =>
        rw [hfold] at h
        simp at h
      | some x =>
        rw [hfold] at h
        simp only [Option.map_some', Option.some.injEq] at h
        rcases node_refine_foldl_shape node ts _ _ _ hfold with h0 | ⟨hmem, hdist, hpos⟩
        · cases h0
        have hminall := (node_refine_foldl_min node ts _ _ _ hfold).1
        have hpd : p.date = x.1 := by
          rw [← h, hpos]
          rfl
        refine ⟨c, List.mem_of_find?_eq_some hf, ?_, ?_⟩
        · rw [hpd]
          exact hmem
        · intro t ht
          rw [hpd, ← hdist]
          exact hminall t ht

set_option maxRecDepth 40000 in
/-- Witness for claim C5: the bisection half on the concrete node-crossing oracle with
13 halvings, and the nodal half on its concrete run. -/
theorem claim_C5_witness :
    (0 ≤ find_exact_ingress exIngressNode 0 7200 0 1 13 ∧
      find_exact_ingress exIngressNode 0 7200 0 1 13 ≤ 7200 ∧
      (∃ e', find_exact_ingress exIngressNode 0 7200 0 1 13 ≤ e' ∧ e' ≤ 7200 ∧
        e' - find_exact_ingress exIngressNode 0 7200 0 1 13 ≤ 1) ∧
      (pytrunc ((math_calculate_planet_position exIngressNode
            (julian_day 0)).longitude / 30) = 0 →
        pytrunc ((math_calculate_planet_position exIngressNode
          (julian_day (find_exact_ingress exIngressNode 0 7200 0 1 13))).longitude
            / 30) = 0)) ∧
    (∃ c ∈ scanList 0 7200 3600,
      exIngressHit.date ∈ scanList (c - 3600) c 60 ∧
      ∀ t ∈ scanList (c - 3600) c 60,
        |(calculate_node_position exIngressNode exIngressHit.date).longitude -
            ((1 : ℤ) : ℚ) * 30| ≤
          |(calculate_node_position exIngressNode t).longitude - ((1 : ℤ) : ℚ) * 30|) :=
  ⟨claim_C5.1 exIngressNode 0 1 13 0 7200 (by norm_num) (by norm_num),
   claim_C5.2 exIngressNode 0 7200 0 1 exIngressHit (by decide)⟩

/-- Helper: the final sorted() of a detector's output is ordered by instant. -/
theorem sort_events_sorted (l : List AstroEvent) :
    List.Pairwise (fun a b => a.fecha_utc ≤ b.fecha_utc) (sort_events l) := by
  have h : (sort_events l).Pairwise
      (fun a b => (decide (a.fecha_utc ≤ b.fecha_utc) : Bool) = true) :=
    List.sorted_mergeSort
      (fun a b c h1 h2 => by
        simp only [decide_eq_true_iff] at h1 h2 ⊢
        exact le_trans h1 h2)
      (fun a b => by
        simp only [Bool.or_eq_true, decide_eq_true_iff]
        exact le_total _ _)
      l
  exact h.imp (fun hab => by simpa using hab)

section OpaqueRatScan

attribute [local irreducible] Rat.mul Rat.add Rat.sub Rat.inv Rat.ofScientific

/-- Helper: the new-moon loop emits solar-eclipse events in strictly advancing order,
provided the external searcher always returns an instant after its argument. -/
theorem solar_scan_sorted (o : EclipseOracle) (e : ℚ) (h : ∀ d, d < o.next_new_moon d) :
    ∀ (fuel : ℕ) (date : ℚ),
      List.Pairwise (fun a b => a.fecha_utc ≤ b.fecha_utc)
          (solar_eclipse_scan o e fuel date) ∧
        ∀ ev ∈ solar_eclipse_scan o e fuel date, o.next_new_moon date ≤ ev.fecha_utc := by
  intro fuel
  induction fuel with
  | zero =>
    intro date
    exact ⟨List.Pairwise.nil, fun ev hev => absurd hev (List.not_mem_nil ev)⟩
  | succ n ih =>
    intro date
    simp only [solar_eclipse_scan]
    split_ifs with hlt hend hcl
    · exact ⟨List.Pairwise.nil, fun ev hev => absurd hev (List.not_mem_nil ev)⟩
    · obtain ⟨hp, hb⟩ := ih (o.next_new_moon date + 1)
      have hprog := h (o.next_new_moon date + 1)
      constructor
      · refine List.Pairwise.cons (fun ev hev => ?_) hp
        show o.next_new_moon date ≤ ev.fecha_utc
        have := hb ev hev
        linarith
      · intro ev hev
        rcases List.mem_cons.mp hev with rfl | hm
        · show o.next_new_moon date ≤ o.next_new_moon date
          exact le_refl _
        · have := hb ev hm
          linarith
    · obtain ⟨hp, hb⟩ := ih (o.next_new_moon date + 1)
      have hprog := h (o.next_new_moon date + 1)
      refine ⟨hp, fun ev hev => ?_⟩
      have := hb ev hev
      linarith
    · exact ⟨List.Pairwise.nil, fun ev hev => absurd hev (List.not_mem_nil ev)⟩

/-- Helper: the full-moon loop emits lunar-eclipse events in strictly advancing order,
provided the external searcher always returns an instant after its argument. -/
theorem lunar_scan_sorted (o : EclipseOracle) (e : ℚ)
    (h : ∀ d, d < o.next_full_moon d) :
    ∀ (fuel : ℕ) (date : ℚ),
      List.Pairwise (fun a b => a.fecha_utc ≤ b.fecha_utc)
          (lunar_eclipse_scan o e fuel date) ∧
        ∀ ev ∈ lunar_eclipse_scan o e fuel date, o.next_full_moon date ≤ ev.fecha_utc := by
  intro fuel
  induction fuel with
  | zero =>
    intro date
    exact ⟨List.Pairwise.nil, fun ev hev => absurd hev (List.not_mem_nil ev)⟩
  | succ n ih =>
    intro date
    simp only [lunar_eclipse_scan]
    split_ifs with hlt hend hcl
    · exact ⟨List.Pairwise.nil, fun ev hev => absurd hev (List.not_mem_nil ev)⟩
    · obtain ⟨hp, hb⟩ := ih (o.next_full_moon date + 1)
      have hprog := h (o.next_full_moon date + 1)
      constructor
      · refine List.Pairwise.cons (fun ev hev => ?_) hp
        show o.next_full_moon date ≤ ev.fecha_utc
        have := hb ev hev
        linarith
      · intro ev hev
        rcases List.mem_cons.mp hev with rfl | hm
        · show o.next_full_moon date ≤ o.next_full_moon date
          exact le_refl _
        · have := hb ev hm
          linarith
    · obtain ⟨hp, hb⟩ := ih (o.next_full_moon date + 1)
      have hprog := h (o.next_full_moon date + 1)
      refine ⟨hp, fun ev hev => ?_⟩
      have := hb ev hev
      linarith
    · exact ⟨List.Pairwise.nil, fun ev hev => absurd hev (List.not_mem_nil ev)⟩

end OpaqueRatScan

set_option maxRecDepth 40000 in
/-- Claim C6 is false as stated: with one classified solar eclipse at day 60 and one
classified lunar eclipse at day 10, the eclipse calculator returns the solar event
before the lunar event, so its returned list is not ordered by instant. -/
theorem claim_C6_counterexample :
    (calculate_eclipses exEclipseOracle 0 100 5).map (fun ev => ev.fecha_utc) =
      [60, 10] ∧
    ¬ List.Pairwise (fun a b => a.fecha_utc ≤ b.fecha_utc)
      (calculate_eclipses exEclipseOracle 0 100 5) :=
  ⟨by decide, by decide⟩

/-- Claim C6 (amended): the aspect and retrograde calculators return their event lists
sorted nondecreasing by instant (they end with an explicit sort); the eclipse
calculator instead returns all solar-eclipse events followed by all lunar-eclipse
events, each block internally in nondecreasing order (under the progress property of
the external syzygy searcher) but with no global sort, so its full list need not be
ordered by instant. -/
theorem claim_C6 :
    (∀ (o : ℚ → Planet → PosQ) (fuel : ℕ) (s e : ℚ),
      List.Pairwise (fun a b => a.fecha_utc ≤ b.fecha_utc)
        (calculate_aspects o fuel s e)) ∧
    (∀ (lon : Planet → ℚ → ℚ) (ym : ℚ → ℤ) (s e : ℚ)
        (pr0 : List (Planet × EventType × ℤ)),
      List.Pairwise (fun a b => a.fecha_utc ≤ b.fecha_utc)
        (calculate_retrogrades lon ym s e pr0)) ∧
    (∀ (o : EclipseOracle) (s e : ℚ) (fuel : ℕ),
      (∀ d, d < o.next_new_moon d) → (∀ d, d < o.next_full_moon d) →
      calculate_eclipses o s e fuel =
          solar_eclipse_scan o e fuel s ++ lunar_eclipse_scan o e fuel s ∧
        List.Pairwise (fun a b => a.fecha_utc ≤ b.fecha_utc)
          (solar_eclipse_scan o e fuel s) ∧
        List.Pairwise (fun a b => a.fecha_utc ≤ b.fecha_utc)
          (lunar_eclipse_scan o e fuel s)) := by
  refine ⟨?_, ?_, ?_⟩
  · intro o fuel s e
    exact sort_events_sorted _
  · intro lon ym s e pr0
    exact sort_events_sorted _
  · intro o s e fuel h1 h2
    exact ⟨rfl, (solar_scan_sorted o e h1 fuel s).1, (lunar_scan_sorted o e h2 fuel s).1⟩

/-- Witness for claim C6: the eclipse half applied to a concrete progressing syzygy
oracle (the other halves have no hypotheses). -/
theorem claim_C6_witness :
    calculate_eclipses exProgressOracle 0 100 4 =
        solar_eclipse_scan exProgressOracle 100 4 0 ++
          lunar_eclipse_scan exProgressOracle 100 4 0 ∧
      List.Pairwise (fun a b => a.fecha_utc ≤ b.fecha_utc)
        (solar_eclipse_scan exProgressOracle 100 4 0) ∧
      List.Pairwise (fun a b => a.fecha_utc ≤ b.fecha_utc)
        (lunar_eclipse_scan exProgressOracle 100 4 0) :=
  claim_C6.2.2 exProgressOracle 0 100 4
    (fun d => by
      show d < d + 29
      linarith)
    (fun d => by
      show d < d + 29
      linarith)

/-- The separation relation is symmetric: the pair/aspect equalities reverse and the
absolute time difference is symmetric. -/
theorem aspectSep_symm : Symmetric aspectSep := by
  intro x y h hxy
  obtain ⟨h1, h2, h3⟩ := hxy
  rw [abs_sub_comm]
  exact h ⟨h1.symm, h2.symm, h3.symm⟩

/-- A foldl preserves any invariant its step preserves. -/
theorem foldl_inv {α β : Type} (P : α → Prop) (f : α → β → α)
    (hf : ∀ a b, P a → P (f a b)) (l : List β) :
    ∀ a : α, P a → P (l.foldl f a) := by
  induction l with
  | nil => intro a ha; exact ha
  | cons b l ih => intro a ha; exact ih (f a b) (hf a b ha)

/-- One candidate step of calculate_aspects preserves the state invariant: an accepted
event passed the 12-hour deduplication test against every registered tuple, so it is
separated from every previously emitted event of the same pair and aspect. -/
theorem process_aspect_candidate_inv (o : ℚ → Planet → PosQ) (fuel : ℕ)
    (p1 p2 : Planet) (st : AspState) (t : ℚ) (a : AspectName)
    (h : aspectInv st) : aspectInv (process_aspect_candidate o fuel p1 p2 st t a) := by
  obtain ⟨hreg, hpair⟩ := h
  simp only [process_aspect_candidate]
  split_ifs with horb
  · cases hfe : find_exact_aspect_time o fuel t p1 p2 a with
    | none => exact ⟨hreg, hpair⟩
    | some hit =>
      by_cases hnew : aspect_is_new st.processed p1 p2 a hit.date = true
      · show aspectInv (if aspect_is_new st.processed p1 p2 a hit.date = true then
            ({ events := st.events ++ [mk_aspect_event p1 p2 a hit],
               processed := (p1, p2, a, hit.date) :: st.processed } : AspState) else st)
        rw [if_pos hnew]
        constructor
        · intro ev hev
          rcases List.mem_append.mp hev with hm | hm
          · obtain ⟨q, hq, hq1, hq2, hq3, hq4⟩ := hreg ev hm
            exact ⟨q, List.mem_cons_of_mem _ hq, hq1, hq2, hq3, hq4⟩
          · rcases List.mem_singleton.mp hm with rfl
            exact ⟨(p1, p2, a, hit.date), List.mem_cons_self _ _, rfl, rfl, rfl, rfl⟩
        · rw [List.pairwise_append]
          refine ⟨hpair, List.pairwise_singleton _ _, ?_⟩
          intro x hx y hy
          rcases List.mem_singleton.mp hy with rfl
          intro hxy
          obtain ⟨h1, h2, h3⟩ := hxy
          obtain ⟨q, hq, hq1, hq2, hq3, hq4⟩ := hreg x hx
          have e1 : q.1 = p1 := by
            have hs : some q.1 = some p1 := hq1.symm.trans h1
            exact Option.some.inj hs
          have e2 : q.2.1 = p2 := by
            have hs : some q.2.1 = some p2 := hq2.symm.trans h2
            exact Option.some.inj hs
          have e3 : q.2.2.1 = a := by
            have hs : some q.2.2.1 = some a := hq3.symm.trans h3
            exact Option.some.inj hs
          have hall := hnew
          rw [aspect_is_new, List.all_eq_true] at hall
          have hq' := hall q hq
          rw [decide_eq_true_iff] at hq'
          push_neg at hq'
          have hsep : (43200 : ℚ) ≤ |hit.date - q.2.2.2| := hq' e1 e2 e3
          show |x.fecha_utc - hit.date| ≥ 43200
          rw [hq4, abs_sub_comm]
          exact hsep
      · show aspectInv (if aspect_is_new st.processed p1 p2 a hit.date = true then
            ({ events := st.events ++ [mk_aspect_event p1 p2 a hit],
               processed := (p1, p2, a, hit.date) :: st.processed } : AspState) else st)
        rw [if_neg hnew]
        exact ⟨hreg, hpair⟩
  · exact ⟨hreg, hpair⟩

/-- The full pair/scan/aspect fold of calculate_aspects maintains the state invariant
from the empty initial state. -/
theorem calculate_aspects_state_inv (o : ℚ → Planet → PosQ) (fuel : ℕ) (s e : ℚ) :
    aspectInv (planet_pairs.foldl
      (fun st pr => (scanListLt s e 300).foldl (aspect_scan_step o fuel pr.1 pr.2) st)
      { events := [], processed := [] }) := by
  refine foldl_inv aspectInv _ ?_ planet_pairs _ ?_
  · intro st pr hst
    refine foldl_inv aspectInv (aspect_scan_step o fuel pr.1 pr.2) ?_ _ st hst
    intro st' u hst'
    exact foldl_inv aspectInv
      (fun q b => process_aspect_candidate o fuel pr.1 pr.2 q u b)
      (fun q b hq => process_aspect_candidate_inv o fuel pr.1 pr.2 q u b hq)
      aspect_names_list st' hst'
  · exact ⟨fun ev hev => absurd hev (List.not_mem_nil ev), List.Pairwise.nil⟩

/-- C7: for any single run of the aspect detector over a time range, no two emitted
events having the same body pair and the same aspect type have instants within 12
hours (43200 seconds) of each other: the returned list is pairwise separated, because
the shared processed_aspects registry rejects any exact instant within 43200 seconds
of a recorded instant for the same pair and aspect, and sorting only permutes. -/
theorem claim_C7 (o : ℚ → Planet → PosQ) (fuel : ℕ) (s e : ℚ) :
    List.Pairwise aspectSep (calculate_aspects o fuel s e) := by
  have hinv := calculate_aspects_state_inv o fuel s e
  simp only [calculate_aspects]
  have hperm := List.mergeSort_perm
    (planet_pairs.foldl
      (fun st pr => (scanListLt s e 300).foldl (aspect_scan_step o fuel pr.1 pr.2) st)
      { events := [], processed := [] } : AspState).events
    (fun a b => decide (a.fecha_utc ≤ b.fecha_utc))
  exact (hperm.pairwise_iff (fun h => aspectSep_symm h)).mpr hinv.2

end AstroCal
